import Mathlib

/-!
# Verification of the restaurant-mcp ordering and compaction engine

This file gives a shallow embedding of the menu-catalog mutation operations of
the restaurant-mcp repository and proves properties of them.

Embedded code:
* `createProduct` — the active tool handler in `src/server.ts` (price cleaning
  and parsing, section/subsection resolution, append-position computation).
* `updateProduct` — the `updateProduct` tool registered in `src/server.ts`
  (product lookup, target-section resolution, clarification check,
  `subSectionOrder` reorder block, move/append block, raw `order` write, and
  the source-subsection compaction pass).  Its individual row updates go
  through the plain client, not a transaction, so the embedding also records
  the ordered list of row writes it issues.
* `deleteProduct` — the `deleteProduct` tool in `src/server.ts` (delete, then
  renumber the remaining members of the affected container inside one
  transaction).
* `part000CreateProduct` — the `createProduct` tool of the second server file
  (`src/mcp-server.ts`), which validates with zod coercion and inserts the
  product without computing any position.

The relational store is modelled as in-memory lists of rows; `prisma`
queries become list lookups, filters and sorts; each `prisma.product.update`
becomes a pointwise row rewrite.
-/

namespace RestaurantMcp

/-- A subsection row: identity and (unique within its section) name. -/
structure SubSection where
  id : Nat
  name : String
deriving DecidableEq, Repr

/-- A section row.  `subSection` is the `hasSubsections` flag, under the
column name the source uses (`section.subSection`); `subSections` is the
included list of child subsections. -/
structure Section where
  id : Nat
  name : String
  subSection : Bool
  subSections : List SubSection
deriving DecidableEq, Repr

/-- A product row.  `order` is the top-level position inside a section,
`subSectionOrder` the position inside a subsection; the source stores the
neutral value `0` in whichever of the two does not apply.  Prices are
modelled as rationals. -/
structure Product where
  id : Nat
  name : String
  description : Option String
  active : Bool
  price : Rat
  sectionId : Nat
  subSectionId : Option Nat
  order : Nat
  subSectionOrder : Nat
deriving DecidableEq, Repr

/-- The store: section rows (with their subsections) and product rows. -/
structure Db where
  sections : List Section
  products : List Product
deriving DecidableEq, Repr

/-! ## JavaScript truthiness

The handlers test arguments with bare `if (x)` / `!x`; `undefined`, `0`,
`""`, `false` and `null` are falsy. -/

/-- Truthiness of an optional number argument (`undefined` and `0` falsy). -/
def tNat : Option Nat → Bool
  | none => false
  | some n => n != 0

/-- Truthiness of an optional string argument (`undefined` and `""` falsy). -/
def tStr : Option String → Bool
  | none => false
  | some s => s != ""

/-- Truthiness of an optional boolean argument. -/
def tBool : Option Bool → Bool
  | none => false
  | some b => b

/-- Truthiness of an optional numeric (price) argument. -/
def tRat : Option Rat → Bool
  | none => false
  | some q => q != 0

/-! ## Store queries -/

/-- Case folding for the `mode: "insensitive"` name matches and the
`toLowerCase()` comparisons of the source. -/
def lc (s : String) : List Char := s.data.map Char.toLower

/-- `prisma.product.findUnique({ where: { id } })`. -/
def findIn (ps : List Product) (i : Nat) : Option Product :=
  ps.find? fun p => p.id == i

/-- `prisma.product.findUnique({ where: { name } })` (the source assumes the
product name is unique). -/
def findInByName (ps : List Product) (n : String) : Option Product :=
  ps.find? fun p => p.name == n

/-- `prisma.section.findUnique({ where: { id } })`. -/
def findSectionById (db : Db) (i : Nat) : Option Section :=
  db.sections.find? fun s => s.id == i

/-- `prisma.section.findFirst({ where: { name: { equals, mode: "insensitive" } } })`. -/
def findSectionByName (db : Db) (n : String) : Option Section :=
  db.sections.find? fun s => lc s.name == lc n

/-- The rows of one container: a section's top level (`subSectionId = none`)
or one subsection (`subSectionId = some _`).  This is the `where` clause
`{ sectionId, subSectionId }` the source uses throughout. -/
def containerOf (ps : List Product) (sid : Nat) (sub : Option Nat) : List Product :=
  ps.filter fun p => p.sectionId == sid && p.subSectionId == sub

/-- Container members of the store. -/
def containerMembers (db : Db) (sid : Nat) (sub : Option Nat) : List Product :=
  containerOf db.products sid sub

/-- `orderBy: { subSectionOrder: "asc" }`. -/
def sortBySubOrder (l : List Product) : List Product :=
  l.insertionSort fun p q => p.subSectionOrder ≤ q.subSectionOrder

/-- `orderBy: { order: "asc" }`. -/
def sortByTopOrder (l : List Product) : List Product :=
  l.insertionSort fun p q => p.order ≤ q.order

/-- Maximum of a list of naturals, `0` when empty. -/
def maxOf (l : List Nat) : Nat := l.foldr max 0

/-- `findFirst({ where: container, orderBy: { subSectionOrder: "desc" } })`
followed by `?? 0`: the largest `subSectionOrder` in a subsection container,
`0` when the container is empty. -/
def maxSubOrder (db : Db) (sid subid : Nat) : Nat :=
  maxOf ((containerMembers db sid (some subid)).map (·.subSectionOrder))

/-- `findFirst({ where: top-level container, orderBy: { order: "desc" } })`
followed by `?? 0`. -/
def maxTopOrder (db : Db) (sid : Nat) : Nat :=
  maxOf ((containerMembers db sid none).map (·.order))

/-! ## Price argument parsing (`createProduct` in `src/server.ts`)

The handler accepts `price` as a number or a string; a string is first
cleaned with `replace(/[^\d.-]/g, "")` and then converted with `Number`. -/

/-- A price argument: JSON number or string. -/
inductive PriceArg where
  | num (q : Rat)
  | str (s : String)
deriving DecidableEq, Repr

/-- `args.price.replace(/[^\d.-]/g, "")`: keep only digits, `.` and `-`. -/
def cleanPriceChars (s : String) : String :=
  ⟨s.data.filter fun c => c.isDigit || c == '.' || c == '-'⟩

/-- Numeric value of a digit string. -/
def digitsToNat (cs : List Char) : Nat :=
  cs.foldl (fun a c => 10 * a + (c.toNat - 48)) 0

/-- JavaScript `Number` on an unsigned decimal numeral made of digits and at
most one `.`; `none` is `NaN`. -/
def parseUnsignedChars (cs : List Char) : Option Rat :=
  let intPart := cs.takeWhile Char.isDigit
  let rest := cs.drop intPart.length
  match rest with
  | [] => if intPart.isEmpty then none else some ((digitsToNat intPart : Int) : Rat)
  | '.' :: frac =>
    if frac.all Char.isDigit then
      if frac.isEmpty then
        if intPart.isEmpty then none else some ((digitsToNat intPart : Int) : Rat)
      else
        some (mkRat (digitsToNat intPart * 10 ^ frac.length + digitsToNat frac) (10 ^ frac.length))
    else none
  | _ => none

/-- JavaScript `Number(s)` for a string `s` over the alphabet
`{0-9, '.', '-'}` — exactly the strings the cleaning step produces:
`""` is `0`, one optional leading `-`, then an unsigned decimal numeral;
anything else is `NaN` (`none`).  Exponent, hexadecimal, whitespace and `+`
forms cannot occur over this alphabet. -/
def jsNumberOfClean (s : String) : Option Rat :=
  if s = "" then some 0
  else
    match s.data with
    | '-' :: rest => (parseUnsignedChars rest).map fun q => -q
    | cs => parseUnsignedChars cs

/-- The parsed price of `createProduct` in `src/server.ts`: a number is used
as is, a string is cleaned and converted; `none` is `NaN`. -/
def parsePrice : PriceArg → Option Rat
  | .num q => some q
  | .str s => jsNumberOfClean (cleanPriceChars s)

/-- JavaScript `Number(s)` on a raw string, as used by `z.coerce.number()` in
the second server file.  Modelled from the environment semantics of
`Number`: exact on strings over `{0-9, '.', '-'}` and on strings containing
any character outside digits, `.`, `-`, whitespace, `+`, exponent or radix
letters (those are `NaN`); whitespace/exponent/hex/`+` forms, which the
claims never exercise, are conservatively mapped to `none`. -/
def jsNumber (s : String) : Option Rat :=
  if s.data.all (fun c => c.isDigit || c == '.' || c == '-') then jsNumberOfClean s
  else none

/-- `z.coerce.number()` applied to the price argument. -/
def coercePrice : PriceArg → Option Rat
  | .num q => some q
  | .str s => jsNumber s

/-! ## Row updates

Every `prisma.product.update({ where, data })` of the source is one
`DbWrite`; `updateProduct` issues them sequentially through the plain
client (no transaction), so the embedding keeps their ordered list. -/

/-- A `where` clause identifying one product. -/
inductive PWhere where
  | byId (i : Nat)
  | byName (n : String)
deriving DecidableEq, Repr

/-- Whether a row matches a `where` clause. -/
def pMatch : PWhere → Product → Bool
  | .byId i, p => p.id == i
  | .byName n, p => p.name == n

/-- The `data` object of a product update: exactly the fields present. -/
structure UpdateData where
  name : Option String := none
  description : Option String := none
  active : Option Bool := none
  price : Option Rat := none
  sectionId : Option Nat := none
  subSectionId : Option (Option Nat) := none
  subSectionOrder : Option Nat := none
  order : Option Nat := none
deriving DecidableEq, Repr

/-- Apply a `data` object to a row: present fields overwrite. -/
def applyData (d : UpdateData) (p : Product) : Product :=
  { p with
    name := d.name.getD p.name
    description := match d.description with
      | some s => some s
      | none => p.description
    active := d.active.getD p.active
    price := d.price.getD p.price
    sectionId := d.sectionId.getD p.sectionId
    subSectionId := d.subSectionId.getD p.subSectionId
    subSectionOrder := d.subSectionOrder.getD p.subSectionOrder
    order := d.order.getD p.order }

/-- One issued row update. -/
inductive DbWrite where
  | update (w : PWhere) (d : UpdateData)
deriving DecidableEq, Repr

/-- Apply one update to the product table. -/
def applyWrite : DbWrite → List Product → List Product
  | .update w d, ps => ps.map fun p => if pMatch w p then applyData d p else p

/-- Apply a sequence of updates in order.  Because `updateProduct` issues its
updates outside any transaction, after a failure part-way through exactly a
prefix of its write list has been applied. -/
def applyWrites (ws : List DbWrite) (ps : List Product) : List Product :=
  ws.foldl (fun acc w => applyWrite w acc) ps

/-- Evolving state of one `updateProduct` call: current store plus the
writes issued so far, in order. -/
structure Run where
  db : Db
  writes : List DbWrite
deriving Repr

/-- Issue one `prisma.product.update({ where, data })`. -/
def emit (w : PWhere) (d : UpdateData) (r : Run) : Run :=
  { db := { r.db with products := applyWrite (.update w d) r.db.products }
    writes := r.writes ++ [.update w d] }

/-- `findUnique({ where })` with an `id` or `name` clause. -/
def findByWhere (ps : List Product) (w : PWhere) : Option Product :=
  ps.find? fun p => pMatch w p

/-- One `for (const it of items)` loop that conditionally updates rows by
id, with both the condition and the written `data` computed from the row
snapshot taken before the loop. -/
def shiftLoop (cond : Product → Prop) [DecidablePred cond] (upd : Product → UpdateData)
    (items : List Product) (r : Run) : Run :=
  items.foldl (fun r it => if cond it then emit (.byId it.id) (upd it) r else r) r

/-- The `let pos = 1; for (...) update({ data: { subSectionOrder: pos++ } })`
renumbering loop. -/
def compactLoop (items : List Product) (r : Run) : Run :=
  (items.foldl (fun (acc : Run × Nat) it =>
    (emit (.byId it.id) { subSectionOrder := some acc.2 } acc.1, acc.2 + 1)) (r, 1)).1

/-! ## `createProduct` (active handler in `src/server.ts`) -/

/-- Arguments of the `createProduct` tool. -/
structure CreateArgs where
  name : Option String := none
  price : Option PriceArg := none
  sectionId : Option Nat := none
  sectionName : Option String := none
  subSectionId : Option Nat := none
  subSectionName : Option String := none
deriving Repr

/-- Outcomes of `createProduct`.  Every error is a thrown `Error(message)`;
in particular `errSubSectionRequired` and `errSubSectionNotFound` carry only
their fixed message, never a list of candidate subsections. -/
inductive CreateOutcome where
  | errNameRequired
  | errPriceRequired
  | errPriceNotPositive
  | errSectionSelectorRequired
  | errSectionNotFound
  | errSubSectionRequired
  | errSubSectionNotFound
  | ok (p : Product)
deriving DecidableEq, Repr

/-- Modelled from the spec: the id the store assigns to a created product
row (the prisma schema file with the autoincrement column is not part of the
sources; the spec only requires ids to be unique). -/
def nextId (db : Db) : Nat :=
  maxOf (db.products.map (·.id)) + 1

/-- Build the created row from the `data` object of `prisma.product.create`.
`description`, `active` and the position field the handler leaves unset take
their column defaults; the defaults (`none`, `true`, neutral position `0`)
are modelled from the spec, the schema file not being part of the sources. -/
def freshProduct (db : Db) (nm : String) (v : Rat) (sid : Nat) (sub : Option Nat)
    (ord subOrd : Nat) : Product :=
  { id := nextId db, name := nm, description := none, active := true, price := v
    sectionId := sid, subSectionId := sub, order := ord, subSectionOrder := subOrd }

/-- The `createProduct` handler of `src/server.ts`. -/
def createProduct (a : CreateArgs) (db : Db) : CreateOutcome × Db :=
  if ¬ tStr a.name then (.errNameRequired, db)
  else
    match a.price with
    | none => (.errPriceRequired, db)
    | some pa =>
      match parsePrice pa with
      | none => (.errPriceNotPositive, db)
      | some v =>
        if v ≤ 0 then (.errPriceNotPositive, db)
        else if ¬ (tNat a.sectionId || tStr a.sectionName) then (.errSectionSelectorRequired, db)
        else
          let sOpt : Option Section :=
            match a.sectionId with
            | some i => findSectionById db i
            | none =>
              match a.sectionName with
              | some n => findSectionByName db n
              | none => none
          match sOpt with
          | none => (.errSectionNotFound, db)
          | some sec =>
            let targetSub0 : Option Nat := a.subSectionId
            if sec.subSection ∧ ¬ (tNat a.subSectionId || tStr a.subSectionName) then
              (.errSubSectionRequired, db)
            else
              let resolved : Option (Option Nat) :=
                if sec.subSection ∧ ¬ tNat targetSub0 ∧ tStr a.subSectionName then
                  match sec.subSections.find? (fun s => lc s.name == lc (a.subSectionName.getD "")) with
                  | none => none
                  | some sub => some (some sub.id)
                else some targetSub0
              match resolved with
              | none => (.errSubSectionNotFound, db)
              | some targetSub =>
                let nm := a.name.getD ""
                if sec.subSection ∧ tNat targetSub then
                  let last := maxSubOrder db sec.id (targetSub.getD 0)
                  let p := freshProduct db nm v sec.id targetSub 0 (last + 1)
                  (.ok p, { db with products := db.products ++ [p] })
                else
                  let last := maxTopOrder db sec.id
                  let p := freshProduct db nm v sec.id none (last + 1) 0
                  (.ok p, { db with products := db.products ++ [p] })

/-! ## `createProduct` of the second server file (`src/mcp-server.ts`) -/

/-- Arguments of the second file's `createProduct` tool. -/
structure P0CreateArgs where
  name : String
  price : PriceArg
  sectionId : Nat
  subSectionId : Option Nat := none
deriving Repr

/-- Outcome of the second file's `createProduct`. -/
inductive P0CreateOutcome where
  | errValidation
  | ok (p : Product)
deriving DecidableEq, Repr

/-- The zod input schema `createProductSchema` of the second server file:
`name` nonempty, `price` coercible to a positive number, `sectionId ≥ 1`,
optional `subSectionId ≥ 1`. -/
def p0Valid (a : P0CreateArgs) : Bool :=
  a.name.length ≥ 1 &&
  (match coercePrice a.price with
   | some v => decide (0 < v)
   | none => false) &&
  1 ≤ a.sectionId &&
  (match a.subSectionId with
   | some i => 1 ≤ i
   | none => true)

/-- The `createProduct` handler of the second server file: after zod
validation it inserts the row with exactly `{ name, price, sectionId,
subSectionId }` — no position field is computed, so `order` and
`subSectionOrder` keep their column defaults (neutral `0`, modelled from the
spec as in `freshProduct`). -/
def part000CreateProduct (a : P0CreateArgs) (db : Db) : P0CreateOutcome × Db :=
  if p0Valid a then
    let p := freshProduct db a.name ((coercePrice a.price).getD 0) a.sectionId a.subSectionId 0 0
    (.ok p, { db with products := db.products ++ [p] })
  else (.errValidation, db)

/-! ## `updateProduct` (`src/server.ts`)

The handler: identify the product by `id` or `name`; resolve the target
section (explicit selector, else the product's current section); ask for a
subsection when the target section needs one; optionally run the
`subSectionOrder` reorder block; build the `data` object (simple fields,
then move/append fields or the raw `order`); issue the final update; and
compact the previous subsection when the product left one.  All row updates
go through `prisma`, not a transaction. -/

/-- Arguments of the `updateProduct` tool. -/
structure UpdateArgs where
  id : Option Nat := none
  name : Option String := none
  description : Option String := none
  active : Option Bool := none
  price : Option Rat := none
  sectionId : Option Nat := none
  sectionName : Option String := none
  subSectionId : Option Nat := none
  subSectionName : Option String := none
  subSectionOrder : Option Nat := none
  order : Option Nat := none
deriving Repr

/-- Outcomes of `updateProduct`.  `needSubSection` is the clarification
payload: it carries the candidate subsections of the target section.  -/
inductive UpdateOutcome where
  | errNeedIdOrName
  | errNeedField
  | errProductNotFound
  | errTargetSectionNotFound
  | errInternalNullSection
  | errUpdateFailed
  | needSubSection (subs : List SubSection)
  | errSubNotFound (subs : List SubSection)
  | ok (updated : Product)
deriving DecidableEq, Repr

/-- Result of one `updateProduct` call: outcome, final store, and the
ordered list of row updates that were issued on the way. -/
structure UpdateRes where
  outcome : UpdateOutcome
  db : Db
  writes : List DbWrite
deriving Repr

/-- The `subSectionOrder` reorder block (`// Si se indicó subSectionOrder y
la sección destino maneja subsecciones, reordenar en la subsección
destino`).  Returns the run so far and the local `existing` record after the
`Object.assign` mirror update. -/
def reorderPhase (a : UpdateArgs) (db : Db) (wh : PWhere) (existing : Product)
    (targetSection : Section) (targetSubId : Option Nat) : Run × Product :=
  match a.subSectionOrder with
  | none => (⟨db, []⟩, existing)
  | some so =>
    if targetSection.subSection ∧ tNat targetSubId then
      let tsub := targetSubId.getD 0
      let items := sortBySubOrder (containerMembers db targetSection.id (some tsub))
      let maxPos := max items.length 1
      let targetPos := max 1 (min so maxPos)
      let isSameSub := existing.sectionId = targetSection.id ∧ existing.subSectionId = some tsub
      if isSameSub ∧ existing.subSectionOrder = targetPos then (⟨db, []⟩, existing)
      else
        let r0 : Run := ⟨db, []⟩
        let r1 :=
          if isSameSub ∧ existing.subSectionOrder ≠ 0 then
            if existing.subSectionOrder < targetPos then
              shiftLoop
                (fun it => a.id ≠ some it.id ∧ it.subSectionOrder ≠ 0 ∧
                  existing.subSectionOrder < it.subSectionOrder ∧ it.subSectionOrder ≤ targetPos)
                (fun it => { subSectionOrder := some (it.subSectionOrder - 1) }) items r0
            else
              shiftLoop
                (fun it => a.id ≠ some it.id ∧ it.subSectionOrder ≠ 0 ∧
                  targetPos ≤ it.subSectionOrder ∧ it.subSectionOrder < existing.subSectionOrder)
                (fun it => { subSectionOrder := some (it.subSectionOrder + 1) }) items r0
          else
            shiftLoop
              (fun it => it.subSectionOrder ≠ 0 ∧ targetPos ≤ it.subSectionOrder)
              (fun it => { subSectionOrder := some (it.subSectionOrder + 1) }) items r0
        let r2 := emit wh
          { sectionId := some targetSection.id, subSectionId := some (some tsub)
            subSectionOrder := some targetPos, order := some 0 } r1
        let existing1 := { existing with
          sectionId := targetSection.id, subSectionId := some tsub, subSectionOrder := targetPos }
        (r2, existing1)
    else (⟨db, []⟩, existing)

/-- The compaction pass over the previous subsection (`// Si el producto se
movió fuera de su subsección de origen, compactar la subsección anterior`):
renumber its remaining members `1, 2, …` in `subSectionOrder` order. -/
def compactSub (sid subid : Nat) (r : Run) : Run :=
  compactLoop (sortBySubOrder (containerMembers r.db sid (some subid))) r

/-- The tail of `updateProduct` once the product and the target section and
subsection are resolved. -/
def updateCore (a : UpdateArgs) (db : Db) (wh : PWhere) (existing0 : Product)
    (targetSection : Section) (targetSubId : Option Nat) : UpdateRes :=
  let prevSectionId := existing0.sectionId
  let prevSubSectionId := existing0.subSectionId
  let r1 := (reorderPhase a db wh existing0 targetSection targetSubId).1
  let existing1 := (reorderPhase a db wh existing0 targetSection targetSubId).2
  let data0 : UpdateData :=
    { name := a.name, description := a.description, active := a.active, price := a.price }
  let movingSection := targetSection.id ≠ existing1.sectionId
  let movingSub := targetSubId ≠ existing1.subSectionId
  let data1 : UpdateData :=
    if movingSection ∨ movingSub ∨ tNat a.sectionId ∨ tStr a.sectionName
        ∨ tNat a.subSectionId ∨ tStr a.subSectionName then
      if targetSection.subSection ∧ tNat targetSubId ∧ a.subSectionOrder.isSome then
        { data0 with sectionId := some targetSection.id, subSectionId := some targetSubId
                     order := some 0 }
      else if targetSection.subSection ∧ tNat targetSubId then
        { data0 with sectionId := some targetSection.id, subSectionId := some targetSubId
                     subSectionOrder := some (maxSubOrder r1.db targetSection.id (targetSubId.getD 0) + 1)
                     order := some 0 }
      else
        { data0 with sectionId := some targetSection.id, subSectionId := some none
                     subSectionOrder := some 0
                     order := some (maxTopOrder r1.db targetSection.id + 1) }
    else
      { data0 with order := a.order
                   subSectionId := match a.subSectionId with
                     | some v => some (some v)
                     | none => none }
  match findByWhere r1.db.products wh with
  | none => { outcome := .errUpdateFailed, db := r1.db, writes := r1.writes }
  | some row =>
    let r2 := emit wh data1 r1
    let updated := applyData data1 row
    let movedOutOfPrevSub := prevSubSectionId ≠ targetSubId ∨ prevSectionId ≠ targetSection.id
    let r3 :=
      if tNat prevSubSectionId ∧ movedOutOfPrevSub then
        compactSub prevSectionId (prevSubSectionId.getD 0) r2
      else r2
    { outcome := .ok updated, db := r3.db, writes := r3.writes }

/-- The `updateProduct` handler of `src/server.ts`. -/
def updateProduct (a : UpdateArgs) (db : Db) : UpdateRes :=
  if ¬ (tNat a.id || tStr a.name) then ⟨.errNeedIdOrName, db, []⟩
  else if ¬ (tBool a.active || tRat a.price || tNat a.sectionId || tStr a.sectionName
      || tNat a.subSectionId || tStr a.subSectionName || a.subSectionOrder.isSome
      || a.order.isSome || tStr a.description || tStr a.name) then ⟨.errNeedField, db, []⟩
  else
    let wh : PWhere := if tNat a.id then .byId (a.id.getD 0) else .byName (a.name.getD "")
    match findByWhere db.products wh with
    | none => ⟨.errProductNotFound, db, []⟩
    | some existing =>
      let usedSelector := tNat a.sectionId || tStr a.sectionName
      let tsOpt : Option Section :=
        if usedSelector then
          if tNat a.sectionId then findSectionById db (a.sectionId.getD 0)
          else findSectionByName db (a.sectionName.getD "")
        else findSectionById db existing.sectionId
      match tsOpt with
      | none =>
        if usedSelector then ⟨.errTargetSectionNotFound, db, []⟩
        else ⟨.errInternalNullSection, db, []⟩
      | some targetSection =>
        if targetSection.subSection ∧ ¬ tNat a.subSectionId ∧ ¬ tStr a.subSectionName ∧
            (tNat a.sectionId ∨ tStr a.sectionName ∨ ¬ tNat existing.subSectionId) then
          ⟨.needSubSection targetSection.subSections, db, []⟩
        else
          let targetSubId0 : Option Nat := a.subSectionId.or existing.subSectionId
          if tStr a.subSectionName then
            match targetSection.subSections.find?
                (fun s => lc s.name == lc (a.subSectionName.getD "")) with
            | none => ⟨.errSubNotFound targetSection.subSections, db, []⟩
            | some sub => updateCore a db wh existing targetSection (some sub.id)
          else updateCore a db wh existing targetSection targetSubId0

/-! ## `deleteProduct` (`src/server.ts`)

Identify the product by `id` or `name`, then — inside one
`prisma.$transaction`, so all-or-nothing — delete it and renumber the
remaining members of its container from `1`. -/

/-- Outcomes of `deleteProduct`. -/
inductive DeleteOutcome where
  | errNeedIdOrName
  | errNotFound
  | ok (deletedId : Nat) (compacted : Nat)
deriving DecidableEq, Repr

/-- One renumbering loop: walk `ids` in order, giving the row with the first
id position `k`, the next `k+1`, and so on, where `f v p` writes position
`v` into row `p`. -/
def renumberF (f : Nat → Product → Product) : List Nat → Nat → List Product → List Product
  | [], _, ps => ps
  | i :: rest, k, ps =>
    renumberF f rest (k + 1) (ps.map fun p => if p.id = i then f k p else p)

/-- `data: { subSectionOrder: pos++ }` of the subsection compaction loop. -/
def setSubPos (v : Nat) (p : Product) : Product :=
  { p with subSectionOrder := v }

/-- `data: { order: pos++, subSectionOrder: 0 }` of the top-level
compaction loop. -/
def setTopPos (v : Nat) (p : Product) : Product :=
  { p with order := v, subSectionOrder := 0 }

/-- The `prisma.$transaction` body of `deleteProduct`: delete the row, then
renumber the remaining members of its container from `1` in position order
(the top-level loop also writes the neutral `subSectionOrder: 0`).  The
transaction commits these writes all-or-nothing. -/
def deleteCore (existing : Product) (db : Db) : DeleteOutcome × Db :=
  let afterDelete := db.products.filter fun p => p.id ≠ existing.id
  if tNat existing.subSectionId then
    let sub := existing.subSectionId.getD 0
    let items := sortBySubOrder (containerOf afterDelete existing.sectionId (some sub))
    let ps := renumberF setSubPos (items.map (·.id)) 1 afterDelete
    (.ok existing.id items.length, { db with products := ps })
  else
    let items := sortByTopOrder (containerOf afterDelete existing.sectionId none)
    let ps := renumberF setTopPos (items.map (·.id)) 1 afterDelete
    (.ok existing.id items.length, { db with products := ps })

/-- The `deleteProduct` handler of `src/server.ts`. -/
def deleteProduct (id? : Option Nat) (name? : Option String) (db : Db) : DeleteOutcome × Db :=
  if ¬ (tNat id? || tStr name?) then (.errNeedIdOrName, db)
  else
    let wh : PWhere := if tNat id? then .byId (id?.getD 0) else .byName (name?.getD "")
    match findByWhere db.products wh with
    | none => (.errNotFound, db)
    | some existing => deleteCore existing db

/-! ## The density invariant -/

/-- The position field a container uses: `subSectionOrder` inside a
subsection, `order` at a section's top level. -/
def posKey (sub : Option Nat) (p : Product) : Nat :=
  match sub with
  | some _ => p.subSectionOrder
  | none => p.order

/-- A container is dense when its members' positions are exactly
`{1, …, n}` for `n` the member count. -/
def Dense (db : Db) (sid : Nat) (sub : Option Nat) : Prop :=
  ((containerMembers db sid sub).map (posKey sub)).Perm
    (List.range' 1 (containerMembers db sid sub).length)

instance (db : Db) (sid : Nat) (sub : Option Nat) : Decidable (Dense db sid sub) := by
  unfold Dense; exact List.decidablePerm _ _

instance : IsTotal Product fun p q => p.subSectionOrder ≤ q.subSectionOrder :=
  ⟨fun a b => Nat.le_total a.subSectionOrder b.subSectionOrder⟩

instance : IsTrans Product fun p q => p.subSectionOrder ≤ q.subSectionOrder :=
  ⟨fun _ _ _ hab hbc => Nat.le_trans hab hbc⟩

instance : IsTotal Product fun p q => p.order ≤ q.order :=
  ⟨fun a b => Nat.le_total a.order b.order⟩

instance : IsTrans Product fun p q => p.order ≤ q.order :=
  ⟨fun _ _ _ hab hbc => Nat.le_trans hab hbc⟩

/-! ## Concrete stores used as test fixtures -/

/-- A product row with the given id, name, container and positions, active,
price `5`. -/
def mkP (i : Nat) (nm : String) (sid : Nat) (sub : Option Nat) (ord so : Nat) : Product :=
  ⟨i, nm, none, true, 5, sid, sub, ord, so⟩

/-- Section `1` "Tragos" with subsection `2` "Vodka" holding three products
at subsection positions `1, 2, 3`; section `3` "Pizzas" (top level, empty). -/
def exDbSub : Db :=
  ⟨[⟨1, "Tragos", true, [⟨2, "Vodka"⟩]⟩, ⟨3, "Pizzas", false, []⟩],
   [mkP 10 "Fernet" 1 (some 2) 0 1, mkP 11 "Campari" 1 (some 2) 0 2,
    mkP 12 "Aperol" 1 (some 2) 0 3]⟩

/-- Two top-level products in section `1`; section `2` top level, empty. -/
def exDbTop : Db :=
  ⟨[⟨1, "Pizzas", false, []⟩, ⟨2, "Empanadas", false, []⟩],
   [mkP 10 "Muzzarella" 1 none 1 0, mkP 11 "Napolitana" 1 none 2 0]⟩

/-- One top-level product in section `1`. -/
def exDbOne : Db :=
  ⟨[⟨1, "Pizzas", false, []⟩], [mkP 10 "Muzzarella" 1 none 1 0]⟩

/-- Section `1` with subsection `2` holding two products. -/
def exDbPair : Db :=
  ⟨[⟨1, "Tragos", true, [⟨2, "Vodka"⟩]⟩],
   [mkP 10 "Fernet" 1 (some 2) 0 1, mkP 11 "Campari" 1 (some 2) 0 2]⟩

/-- A top-level product in section `1` and a two-member subsection `5` of
section `2`. -/
def exDbMove : Db :=
  ⟨[⟨1, "Pizzas", false, []⟩, ⟨2, "Tragos", true, [⟨5, "Vodka"⟩]⟩],
   [mkP 10 "Muzzarella" 1 none 1 0, mkP 11 "Smirnoff" 2 (some 5) 0 1,
    mkP 12 "Absolut" 2 (some 5) 0 2]⟩

/-- Section `1` requires a subsection and offers one candidate. -/
def exDbClarifyA : Db :=
  ⟨[⟨1, "Tragos", true, [⟨2, "Vodka"⟩]⟩], []⟩

/-- Section `1` requires a subsection and offers two different candidates. -/
def exDbClarifyB : Db :=
  ⟨[⟨1, "Tragos", true, [⟨3, "Gin"⟩, ⟨4, "Ron"⟩]⟩], []⟩

/-- The `data` object of the final update in the no-move branch: simple
fields plus the raw `order` argument. -/
def simpleData (a : UpdateArgs) : UpdateData :=
  { name := a.name, description := a.description, active := a.active, price := a.price, order := a.order }

/-! ## General lemmas about the store primitives -/

theorem applyData_id (d : UpdateData) (p : Product) : (applyData d p).id = p.id := rfl

theorem applyData_empty (p : Product) : applyData {} p = p := rfl

theorem emit_products (w : PWhere) (d : UpdateData) (r : Run) :
    (emit w d r).db.products = applyWrite (.update w d) r.db.products := rfl

theorem emit_sections (w : PWhere) (d : UpdateData) (r : Run) :
    (emit w d r).db.sections = r.db.sections := rfl

theorem findIn_map (g : Product → Product) (hg : ∀ p, (g p).id = p.id)
    (ps : List Product) (i : Nat) :
    findIn (ps.map g) i = (findIn ps i).map g := by
  induction ps with
  | nil => rfl
  | cons h t ih =>
    simp only [findIn, List.map_cons, List.find?] at ih ⊢
    rw [hg h]
    cases hh : (h.id == i) with
    | true => rfl
    | false => exact ih

theorem findIn_id {ps : List Product} {i : Nat} {p : Product}
    (h : findIn ps i = some p) : p.id = i := by
  unfold findIn at h
  have := List.find?_some h
  exact beq_iff_eq.mp this

theorem findIn_of_mem : ∀ (ps : List Product), (ps.map (·.id)).Nodup →
    ∀ {q : Product}, q ∈ ps → findIn ps q.id = some q
  | [], _, _, hq => absurd hq (List.not_mem_nil _)
  | h :: t, hnd, q, hq => by
    rcases List.mem_cons.mp hq with rfl | hmem
    · simp [findIn, List.find?]
    · have hne : h.id ≠ q.id := by
        intro he
        have hq2 : q.id ∈ t.map (·.id) := List.mem_map.mpr ⟨q, hmem, rfl⟩
        rw [← he] at hq2
        exact (List.nodup_cons.mp hnd).1 hq2
      have ht := (List.nodup_cons.mp hnd).2
      simp only [findIn, List.find?]
      rw [show (h.id == q.id) = false from beq_eq_false_iff_ne.mpr hne]
      exact findIn_of_mem t ht hmem

theorem findIn_eq_none (ps : List Product) (i : Nat)
    (h : ∀ p ∈ ps, p.id ≠ i) : findIn ps i = none :=
  List.find?_eq_none.mpr fun p hp => by simpa using h p hp

theorem id_inj {ps : List Product} (hn : (ps.map (·.id)).Nodup)
    {p q : Product} (hp : p ∈ ps) (hq : q ∈ ps) (h : p.id = q.id) : p = q :=
  List.inj_on_of_nodup_map hn hp hq h

theorem nodup_ids_map (g : Product → Product) (hg : ∀ p, (g p).id = p.id)
    (ps : List Product) (hn : (ps.map (·.id)).Nodup) :
    ((ps.map g).map (·.id)).Nodup := by
  rw [List.map_map]
  have he : ((fun p : Product => p.id) ∘ g) = fun p : Product => p.id :=
    funext fun p => hg p
  rw [he]; exact hn

theorem containerOf_map (g : Product → Product)
    (hsec : ∀ p, (g p).sectionId = p.sectionId)
    (hsub : ∀ p, (g p).subSectionId = p.subSectionId)
    (ps : List Product) (sid : Nat) (sub : Option Nat) :
    containerOf (ps.map g) sid sub = (containerOf ps sid sub).map g := by
  unfold containerOf
  rw [List.filter_map]
  congr 1
  apply List.filter_congr
  intro p _
  simp [Function.comp, hsec, hsub]

theorem containerOf_sublist (ps : List Product) (sid : Nat) (sub : Option Nat) :
    (containerOf ps sid sub).Sublist ps :=
  List.filter_sublist ps

theorem mem_containerOf {ps : List Product} {sid : Nat} {sub : Option Nat} {p : Product} :
    p ∈ containerOf ps sid sub ↔ p ∈ ps ∧ p.sectionId = sid ∧ p.subSectionId = sub := by
  unfold containerOf
  rw [List.mem_filter]
  simp

theorem container_ids_nodup {ps : List Product} (hn : (ps.map (·.id)).Nodup)
    (sid : Nat) (sub : Option Nat) :
    ((containerOf ps sid sub).map (·.id)).Nodup :=
  ((containerOf_sublist ps sid sub).map _).nodup hn

theorem sortBySubOrder_perm (l : List Product) : (sortBySubOrder l).Perm l :=
  List.perm_insertionSort _ l

theorem sortByTopOrder_perm (l : List Product) : (sortByTopOrder l).Perm l :=
  List.perm_insertionSort _ l

theorem sortBySubOrder_length (l : List Product) :
    (sortBySubOrder l).length = l.length :=
  (sortBySubOrder_perm l).length_eq

/-! ## Renumbering produces the positions `k, k+1, …` -/

theorem renumberF_eq_map (f : Nat → Product → Product) (hf : ∀ v p, (f v p).id = p.id) :
    ∀ (ids : List Nat), ids.Nodup → ∀ (k : Nat) (ps : List Product),
      renumberF f ids k ps =
        ps.map fun p => if p.id ∈ ids then f (k + List.indexOf p.id ids) p else p
  | [], _, k, ps => by
    simp [renumberF]
  | i :: rest, hnd, k, ps => by
    have hi : i ∉ rest := (List.nodup_cons.mp hnd).1
    have hr : rest.Nodup := (List.nodup_cons.mp hnd).2
    rw [renumberF, renumberF_eq_map f hf rest hr (k + 1), List.map_map]
    congr 1
    funext p
    by_cases hpi : p.id = i
    · have h1 : (f k p).id ∉ rest := by rw [hf, hpi]; exact hi
      simp only [Function.comp_apply, if_pos hpi, if_neg h1]
      rw [if_pos (by rw [hpi]; exact List.mem_cons_self i rest), hpi,
        List.indexOf_cons_self, Nat.add_zero]
    · simp only [Function.comp_apply, if_neg hpi]
      by_cases hm : p.id ∈ rest
      · rw [if_pos hm, if_pos (List.mem_cons.mpr (Or.inr hm)),
          List.indexOf_cons_ne rest (fun h => hpi h.symm), Nat.succ_eq_add_one]
        congr 1
        omega
      · rw [if_neg hm, if_neg (by
          intro h
          rcases List.mem_cons.mp h with h | h
          · exact hpi h
          · exact hm h)]

theorem map_indexOf_eq_range : ∀ (ids : List Nat), ids.Nodup →
    (ids.map fun i => List.indexOf i ids) = List.range ids.length
  | [], _ => rfl
  | i :: rest, hnd => by
    have hi : i ∉ rest := (List.nodup_cons.mp hnd).1
    have hr : rest.Nodup := (List.nodup_cons.mp hnd).2
    have step : (rest.map fun j => List.indexOf j (i :: rest))
        = rest.map fun j => (List.indexOf j rest).succ :=
      List.map_congr_left fun j hj =>
        List.indexOf_cons_ne rest (fun h => hi (by rw [h]; exact hj))
    calc ((i :: rest).map fun j => List.indexOf j (i :: rest))
        = List.indexOf i (i :: rest) :: (rest.map fun j => List.indexOf j (i :: rest)) := rfl
      _ = 0 :: rest.map fun j => (List.indexOf j rest).succ := by
          rw [List.indexOf_cons_self, step]
      _ = 0 :: (rest.map fun j => List.indexOf j rest).map Nat.succ := by
          rw [List.map_map]; rfl
      _ = 0 :: (List.range rest.length).map Nat.succ := by
          rw [map_indexOf_eq_range rest hr]
      _ = List.range (rest.length + 1) := (List.range_succ_eq_map rest.length).symm
      _ = List.range (i :: rest).length := by simp

/-- Renumbering the members of one container along any enumeration `s2` of
that container (walked in `s2`'s order, positions `1, 2, …`) makes the
container's position multiset exactly `{1, …, |s2|}`, whatever the old
positions were. -/
theorem renumber_container_perm
    (f : Nat → Product → Product) (get : Product → Nat)
    (hfid : ∀ v p, (f v p).id = p.id)
    (hfsec : ∀ v p, (f v p).sectionId = p.sectionId)
    (hfsub : ∀ v p, (f v p).subSectionId = p.subSectionId)
    (hfget : ∀ v p, get (f v p) = v)
    (ps : List Product) (sid : Nat) (sub : Option Nat) (s2 : List Product)
    (hperm : s2.Perm (containerOf ps sid sub))
    (hnodup : (ps.map (·.id)).Nodup) :
    ((containerOf (renumberF f (s2.map (·.id)) 1 ps) sid sub).map get).Perm
      (List.range' 1 s2.length) ∧
    (containerOf (renumberF f (s2.map (·.id)) 1 ps) sid sub).length = s2.length := by
  have hmsnd : ((containerOf ps sid sub).map (·.id)).Nodup := container_ids_nodup hnodup sid sub
  have hidsnd : (s2.map (·.id)).Nodup := ((hperm.map (·.id)).symm).nodup hmsnd
  have hGsec : ∀ p : Product,
      ((fun p => if p.id ∈ s2.map (·.id) then
          f (1 + List.indexOf p.id (s2.map (·.id))) p else p) p).sectionId = p.sectionId := by
    intro p
    by_cases h : p.id ∈ s2.map (·.id) <;> simp [h, hfsec]
  have hGsub : ∀ p : Product,
      ((fun p => if p.id ∈ s2.map (·.id) then
          f (1 + List.indexOf p.id (s2.map (·.id))) p else p) p).subSectionId = p.subSectionId := by
    intro p
    by_cases h : p.id ∈ s2.map (·.id) <;> simp [h, hfsub]
  have h1 : containerOf (renumberF f (s2.map (·.id)) 1 ps) sid sub
      = (containerOf ps sid sub).map fun p =>
          if p.id ∈ s2.map (·.id) then f (1 + List.indexOf p.id (s2.map (·.id))) p else p := by
    rw [renumberF_eq_map f hfid _ hidsnd 1 ps]
    exact containerOf_map _ hGsec hGsub ps sid sub
  have hlen : (containerOf ps sid sub).length = s2.length := hperm.length_eq.symm
  refine ⟨?_, by rw [h1, List.length_map, hlen]⟩
  have hmem : ∀ m ∈ containerOf ps sid sub, m.id ∈ s2.map (·.id) := by
    intro m hm
    have h2 : m.id ∈ (containerOf ps sid sub).map (·.id) := List.mem_map.mpr ⟨m, hm, rfl⟩
    exact ((hperm.map (·.id)).mem_iff).mpr h2
  rw [h1, List.map_map]
  have h2 : ((containerOf ps sid sub).map
      ((fun p => get p) ∘ fun p =>
        if p.id ∈ s2.map (·.id) then f (1 + List.indexOf p.id (s2.map (·.id))) p else p))
      = (containerOf ps sid sub).map
          fun m => 1 + List.indexOf m.id (s2.map (·.id)) := by
    apply List.map_congr_left
    intro m hm
    simp only [Function.comp_apply]
    rw [if_pos (hmem m hm), hfget]
  rw [show ((containerOf ps sid sub).map
      (get ∘ fun p =>
        if p.id ∈ s2.map (·.id) then f (1 + List.indexOf p.id (s2.map (·.id))) p else p))
      = (containerOf ps sid sub).map
          ((fun p => get p) ∘ fun p =>
            if p.id ∈ s2.map (·.id) then f (1 + List.indexOf p.id (s2.map (·.id))) p else p)
    from rfl, h2]
  have h3 : ((containerOf ps sid sub).map fun m => 1 + List.indexOf m.id (s2.map (·.id)))
      = ((containerOf ps sid sub).map (·.id)).map
          fun i => 1 + List.indexOf i (s2.map (·.id)) := by
    rw [List.map_map]; rfl
  rw [h3]
  have h4 : (((containerOf ps sid sub).map (·.id)).map
        fun i => 1 + List.indexOf i (s2.map (·.id))).Perm
      ((s2.map (·.id)).map fun i => 1 + List.indexOf i (s2.map (·.id))) :=
    ((hperm.map (·.id)).symm).map _
  have h5 : (((s2.map (·.id)).map fun i => List.indexOf i (s2.map (·.id))).map fun x => 1 + x)
      = ((s2.map (·.id)).map fun i => 1 + List.indexOf i (s2.map (·.id))) := by
    rw [List.map_map]; rfl
  have h8 : ((s2.map (·.id)).map fun i => 1 + List.indexOf i (s2.map (·.id)))
      = List.range' 1 s2.length := by
    rw [← h5, map_indexOf_eq_range _ hidsnd, ← List.range'_eq_map_range, List.length_map]
  refine h4.trans ?_
  rw [h8]

/-! ## Sortedness and index order -/

theorem sortBySubOrder_sorted (l : List Product) :
    List.Sorted (fun p q => p.subSectionOrder ≤ q.subSectionOrder) (sortBySubOrder l) :=
  List.sorted_insertionSort _ l

theorem sortByTopOrder_sorted (l : List Product) :
    List.Sorted (fun p q => p.order ≤ q.order) (sortByTopOrder l) :=
  List.sorted_insertionSort _ l

/-- In a list sorted by `key`, a strictly smaller key sits at a strictly
smaller index. -/
theorem sorted_index_lt (key : Product → Nat) (s2 : List Product)
    (hsorted : List.Sorted (fun p q => key p ≤ key q) s2)
    {q r : Product} (hq : q ∈ s2) (hr : r ∈ s2) (hlt : key q < key r) :
    List.indexOf q s2 < List.indexOf r s2 := by
  have ha : List.indexOf q s2 < s2.length := List.indexOf_lt_length.mpr hq
  have hb : List.indexOf r s2 < s2.length := List.indexOf_lt_length.mpr hr
  by_contra hc
  have hc2 : List.indexOf r s2 ≤ List.indexOf q s2 := Nat.le_of_not_lt hc
  rcases Nat.eq_or_lt_of_le hc2 with he | hlt2
  · have hrq : r = q := by
      have h1 := List.indexOf_get hb
      have h2 := List.indexOf_get ha
      rw [← h1, ← h2, show (⟨List.indexOf r s2, hb⟩ : Fin s2.length)
        = ⟨List.indexOf q s2, ha⟩ from Fin.ext he]
    rw [hrq] at hlt
    exact absurd hlt (lt_irrefl _)
  · have hrel := List.Sorted.rel_get_of_lt hsorted
      (a := ⟨List.indexOf r s2, hb⟩) (b := ⟨List.indexOf q s2, ha⟩) hlt2
    rw [List.indexOf_get hb, List.indexOf_get ha] at hrel
    omega

/-- With duplicate-free ids, the index of a member's id in the id list is
the member's own index. -/
theorem indexOf_id_map : ∀ (s2 : List Product), (s2.map (·.id)).Nodup →
    ∀ {q : Product}, q ∈ s2 → List.indexOf q.id (s2.map (·.id)) = List.indexOf q s2
  | [], _, _, hq => absurd hq (List.not_mem_nil _)
  | h :: t, hnd, q, hq => by
    rcases List.mem_cons.mp hq with rfl | hmem
    · rw [List.map_cons, List.indexOf_cons_self, List.indexOf_cons_self]
    · have hneid : h.id ≠ q.id := fun he => (List.nodup_cons.mp hnd).1
        (List.mem_map.mpr ⟨q, hmem, he.symm⟩)
      have hne : h ≠ q := fun he => hneid (by rw [he])
      rw [List.map_cons, List.indexOf_cons_ne _ hneid, List.indexOf_cons_ne _ hne,
        indexOf_id_map t (List.nodup_cons.mp hnd).2 hmem]

/-- Removing one member of an id-distinct list by its id shortens the list
by exactly one. -/
theorem length_filter_ne_id : ∀ (ms : List Product), (ms.map (·.id)).Nodup →
    ∀ {P : Product}, P ∈ ms →
      (ms.filter fun p => p.id ≠ P.id).length = ms.length - 1
  | [], _, _, hq => absurd hq (List.not_mem_nil _)
  | h :: t, hnd, P, hq => by
    rcases List.mem_cons.mp hq with rfl | hmem
    · have hall : ∀ p ∈ t, p.id ≠ P.id := fun p hp he => (List.nodup_cons.mp hnd).1
        (List.mem_map.mpr ⟨p, hp, he⟩)
      have hkeep : (t.filter fun p => p.id ≠ P.id) = t :=
        List.filter_eq_self.mpr fun p hp => by simpa using hall p hp
      rw [List.filter_cons_of_neg (by simp), hkeep, List.length_cons]
      omega
    · have hh : h.id ≠ P.id := fun he => (List.nodup_cons.mp hnd).1
        (List.mem_map.mpr ⟨P, hmem, he.symm⟩)
      have hpos : 0 < t.length := List.length_pos.mpr fun he => by
        rw [he] at hmem; exact absurd hmem (List.not_mem_nil _)
      have ih := length_filter_ne_id t (List.nodup_cons.mp hnd).2 hmem
      rw [List.filter_cons_of_pos (by simpa using hh), List.length_cons, List.length_cons, ih]
      omega

/-! ## Tracking one row through sequences of writes -/

theorem findIn_applyWrite (w : PWhere) (d : UpdateData) (ps : List Product) (i : Nat) :
    findIn (applyWrite (.update w d) ps) i
      = (findIn ps i).map fun p => if pMatch w p then applyData d p else p :=
  findIn_map _ (fun p => by cases h : pMatch w p <;> simp [h, applyData_id]) ps i

theorem applyWrite_empty (w : PWhere) (ps : List Product) :
    applyWrite (.update w {}) ps = ps := by
  unfold applyWrite
  have hpt : ∀ p : Product, (if pMatch w p then applyData {} p else p) = p := fun p => by
    cases h : pMatch w p <;> simp [h, applyData_empty]
  simp [hpt]

theorem shiftLoop_nil (cond : Product → Prop) [DecidablePred cond]
    (upd : Product → UpdateData) (r : Run) : shiftLoop cond upd [] r = r := rfl

theorem shiftLoop_cons (cond : Product → Prop) [DecidablePred cond]
    (upd : Product → UpdateData) (it : Product) (rest : List Product) (r : Run) :
    shiftLoop cond upd (it :: rest) r
      = shiftLoop cond upd rest (if cond it then emit (.byId it.id) (upd it) r else r) := rfl

/-- A shift loop whose condition excludes id `pid` leaves the row found
under `pid` unchanged. -/
theorem shiftLoop_findIn (cond : Product → Prop) [DecidablePred cond]
    (upd : Product → UpdateData) (pid : Nat) :
    ∀ (items : List Product) (r : Run),
      (∀ it ∈ items, cond it → it.id ≠ pid) →
      findIn (shiftLoop cond upd items r).db.products pid = findIn r.db.products pid
  | [], _, _ => rfl
  | it :: rest, r, h => by
    rw [shiftLoop_cons, shiftLoop_findIn cond upd pid rest _
      (fun x hx => h x (List.mem_cons.mpr (Or.inr hx)))]
    by_cases hc : cond it
    · rw [if_pos hc]
      rw [show (emit (.byId it.id) (upd it) r).db.products
        = applyWrite (.update (.byId it.id) (upd it)) r.db.products from rfl]
      rw [findIn_applyWrite]
      cases hf : findIn r.db.products pid with
      | none => rfl
      | some p0 =>
        have hp0 : p0.id = pid := findIn_id hf
        have hne : pMatch (.byId it.id) p0 = false := by
          simp only [pMatch, beq_eq_false_iff_ne, ne_eq, hp0]
          exact fun he => h it (List.mem_cons_self it rest) hc he.symm
        simp [hne]
    · rw [if_neg hc]

/-- A renumbering that never touches id `pid` leaves the row found under
`pid` unchanged. -/
theorem renumberF_findIn (f : Nat → Product → Product)
    (hf : ∀ v p, (f v p).id = p.id) (pid : Nat) :
    ∀ (ids : List Nat) (k : Nat) (ps : List Product), pid ∉ ids →
      findIn (renumberF f ids k ps) pid = findIn ps pid
  | [], _, _, _ => rfl
  | i :: rest, k, ps, h => by
    rw [renumberF, renumberF_findIn f hf pid rest (k + 1) _
      (fun hm => h (List.mem_cons.mpr (Or.inr hm)))]
    rw [findIn_map _ (fun p => by by_cases hp : p.id = i <;> simp [hp, hf])]
    cases hfind : findIn ps pid with
    | none => rfl
    | some p0 =>
      have hp0 : p0.id = pid := findIn_id hfind
      have hne : ¬ p0.id = i := by
        rw [hp0]; exact fun he => h (by rw [← he]; exact List.mem_cons_self pid rest)
      simp [hne]

theorem compactLoop_aux : ∀ (l : List Product) (r : Run) (k : Nat),
    ((l.foldl (fun (acc : Run × Nat) it =>
      (emit (.byId it.id) { subSectionOrder := some acc.2 } acc.1, acc.2 + 1)) (r, k)).1).db.products
    = renumberF setSubPos (l.map (·.id)) k r.db.products
  | [], _, _ => rfl
  | it :: rest, r, k => by
    rw [List.foldl_cons, compactLoop_aux rest _ (k + 1), List.map_cons, renumberF]
    congr 1
    rw [show (emit (.byId it.id) { subSectionOrder := some k } r).db.products
      = applyWrite (.update (.byId it.id) { subSectionOrder := some k }) r.db.products from rfl]
    simp only [applyWrite]
    congr 1
    funext p
    by_cases h : p.id = it.id
    · rw [if_pos h, show pMatch (.byId it.id) p = true from beq_iff_eq.mpr h, if_pos rfl]
      rfl
    · rw [if_neg h, show pMatch (.byId it.id) p = false from beq_eq_false_iff_ne.mpr h]
      simp

/-- `compactLoop` is the renumbering walk over the listed rows' ids. -/
theorem compactLoop_products (l : List Product) (r : Run) :
    (compactLoop l r).db.products = renumberF setSubPos (l.map (·.id)) 1 r.db.products :=
  compactLoop_aux l r 1

/-! ## Dispatch lemmas: reducing the handlers under resolution hypotheses -/

theorem findByWhere_byId (ps : List Product) (i : Nat) :
    findByWhere ps (.byId i) = findIn ps i := rfl

theorem nodup_ids_filter (ps : List Product) (hn : (ps.map (·.id)).Nodup)
    (q : Product → Bool) : ((ps.filter q).map (·.id)).Nodup :=
  ((ps.filter_sublist).map _).nodup hn

theorem containerOf_filter (ps : List Product) (q : Product → Bool)
    (sid : Nat) (sub : Option Nat) :
    containerOf (ps.filter q) sid sub = (containerOf ps sid sub).filter q := by
  unfold containerOf
  rw [List.filter_filter, List.filter_filter]
  apply List.filter_congr
  intro p _
  rw [Bool.and_comm]

/-- Looking a row up after a renumbering: the row is rewritten exactly when
its id is listed. -/
theorem renumberF_findIn_map (f : Nat → Product → Product)
    (hfid : ∀ v p, (f v p).id = p.id) (ids : List Nat) (hnd : ids.Nodup)
    (k : Nat) (ps : List Product) (i : Nat) :
    findIn (renumberF f ids k ps) i
      = (findIn ps i).map fun p =>
          if p.id ∈ ids then f (k + List.indexOf p.id ids) p else p := by
  rw [renumberF_eq_map f hfid ids hnd k ps]
  exact findIn_map _ (fun p => by by_cases h : p.id ∈ ids <;> simp [h, hfid]) ps i

theorem deleteProduct_byId (db : Db) (pid : Nat) (P : Product)
    (hpid : pid ≠ 0) (hfind : findIn db.products pid = some P) :
    deleteProduct (some pid) none db = deleteCore P db := by
  have hT : tNat (some pid) = true := by simp [tNat, hpid]
  unfold deleteProduct
  rw [if_neg (by simp [hT, tStr]), if_pos hT]
  show (match findByWhere db.products (PWhere.byId ((some pid).getD 0)) with
    | none => (DeleteOutcome.errNotFound, db)
    | some existing => deleteCore existing db) = deleteCore P db
  rw [show (some pid).getD 0 = pid from rfl, findByWhere_byId, hfind]

/-! ## Correctness of the delete compaction -/

/-- Either branch of `deleteCore`'s transaction, generically in the position
field written (`f`, read back by `posKey sub`): the remaining container is
one shorter and dense, no surviving row changes container, the deleted row
is gone. -/
theorem delete_branch (db : Db) (P : Product)
    (f : Nat → Product → Product) (sub : Option Nat) (items : List Product)
    (hfid : ∀ v p, (f v p).id = p.id)
    (hfsec : ∀ v p, (f v p).sectionId = p.sectionId)
    (hfsub : ∀ v p, (f v p).subSectionId = p.subSectionId)
    (hfget : ∀ v p, posKey sub (f v p) = v)
    (hitems : items.Perm (containerOf (db.products.filter fun p => p.id ≠ P.id) P.sectionId sub))
    (hnodup : (db.products.map (·.id)).Nodup)
    (hmem : P ∈ db.products)
    (hPsub : P.subSectionId = sub) :
    items.length = (containerOf db.products P.sectionId sub).length - 1 ∧
    Dense { db with products := (renumberF f (items.map (·.id)) 1
      (db.products.filter fun p => p.id ≠ P.id)) } P.sectionId sub ∧
    (containerOf (renumberF f (items.map (·.id)) 1
      (db.products.filter fun p => p.id ≠ P.id)) P.sectionId sub).length = items.length ∧
    (∀ p ∈ db.products, p.id ≠ P.id →
      ∃ p', findIn (renumberF f (items.map (·.id)) 1
        (db.products.filter fun p => p.id ≠ P.id)) p.id = some p' ∧
        p'.sectionId = p.sectionId ∧ p'.subSectionId = p.subSectionId) ∧
    findIn (renumberF f (items.map (·.id)) 1
      (db.products.filter fun p => p.id ≠ P.id)) P.id = none := by
  have hnodupA : ((db.products.filter fun p => p.id ≠ P.id).map (·.id)).Nodup :=
    nodup_ids_filter _ hnodup _
  have hPinC : P ∈ containerOf db.products P.sectionId sub :=
    mem_containerOf.mpr ⟨hmem, rfl, hPsub⟩
  have hContA : containerOf (db.products.filter fun p => p.id ≠ P.id) P.sectionId sub
      = (containerOf db.products P.sectionId sub).filter fun p => p.id ≠ P.id :=
    containerOf_filter _ _ _ _
  have hlenA : (containerOf (db.products.filter fun p => p.id ≠ P.id) P.sectionId sub).length
      = (containerOf db.products P.sectionId sub).length - 1 := by
    rw [hContA]
    exact length_filter_ne_id _ (container_ids_nodup hnodup _ _) hPinC
  have hlenI : items.length = (containerOf db.products P.sectionId sub).length - 1 := by
    rw [hitems.length_eq, hlenA]
  have hcore := renumber_container_perm f (posKey sub) hfid hfsec hfsub hfget
    (db.products.filter fun p => p.id ≠ P.id) P.sectionId sub items hitems hnodupA
  have hidsnd : (items.map (·.id)).Nodup :=
    ((hitems.map (·.id)).symm).nodup (container_ids_nodup hnodupA P.sectionId sub)
  refine ⟨hlenI, ?_, hcore.2, ?_, ?_⟩
  · show ((containerOf (renumberF f (items.map (·.id)) 1
        (db.products.filter fun p => p.id ≠ P.id)) P.sectionId sub).map (posKey sub)).Perm
      (List.range' 1 (containerOf (renumberF f (items.map (·.id)) 1
        (db.products.filter fun p => p.id ≠ P.id)) P.sectionId sub).length)
    rw [hcore.2]
    exact hcore.1
  · intro p hp hne
    have hpA : p ∈ db.products.filter fun p => p.id ≠ P.id :=
      List.mem_filter.mpr ⟨hp, by simpa using hne⟩
    have hfindA : findIn (db.products.filter fun p => p.id ≠ P.id) p.id = some p :=
      findIn_of_mem _ hnodupA hpA
    rw [renumberF_findIn_map f hfid _ hidsnd 1 _ p.id, hfindA]
    by_cases hin : p.id ∈ items.map (·.id)
    · refine ⟨f (1 + List.indexOf p.id (items.map (·.id))) p, ?_, hfsec _ p, hfsub _ p⟩
      rw [Option.map_some', if_pos hin]
    · refine ⟨p, ?_, rfl, rfl⟩
      rw [Option.map_some', if_neg hin]
  · have hnoneA : findIn (db.products.filter fun p => p.id ≠ P.id) P.id = none :=
      findIn_eq_none _ _ fun p hp => by simpa using (List.mem_filter.mp hp).2
    rw [renumberF_findIn_map f hfid _ hidsnd 1 _ P.id, hnoneA]
    rfl

/-- `deleteCore` on a top-level product: delete, then renumber `order`. -/
theorem deleteCore_eq_top (db : Db) (P : Product) (hP : P.subSectionId = none) :
    deleteCore P db
      = (DeleteOutcome.ok P.id (sortByTopOrder (containerOf
          (db.products.filter fun p => p.id ≠ P.id) P.sectionId none)).length,
        { db with products := (renumberF setTopPos ((sortByTopOrder (containerOf
          (db.products.filter fun p => p.id ≠ P.id) P.sectionId none)).map (·.id)) 1
          (db.products.filter fun p => p.id ≠ P.id)) }) := by
  unfold deleteCore
  rw [hP]
  rfl

/-- `deleteCore` on a subsection product: delete, then renumber
`subSectionOrder`. -/
theorem deleteCore_eq_sub (db : Db) (P : Product) (s : Nat)
    (hP : P.subSectionId = some s) (hs : s ≠ 0) :
    deleteCore P db
      = (DeleteOutcome.ok P.id (sortBySubOrder (containerOf
          (db.products.filter fun p => p.id ≠ P.id) P.sectionId (some s))).length,
        { db with products := (renumberF setSubPos ((sortBySubOrder (containerOf
          (db.products.filter fun p => p.id ≠ P.id) P.sectionId (some s))).map (·.id)) 1
          (db.products.filter fun p => p.id ≠ P.id)) }) := by
  unfold deleteCore
  rw [hP, if_pos (show tNat (some s) = true by simp [tNat, hs])]
  rfl

/-- `deleteCore` reports the right count and leaves the affected container
dense and one shorter; membership of every other row is untouched and the
deleted id is gone. -/
theorem deleteCore_correct (db : Db) (P : Product)
    (hnodup : (db.products.map (·.id)).Nodup)
    (hmem : P ∈ db.products)
    (hsub0 : P.subSectionId ≠ some 0) :
    (deleteCore P db).1
      = .ok P.id ((containerOf db.products P.sectionId P.subSectionId).length - 1) ∧
    Dense (deleteCore P db).2 P.sectionId P.subSectionId ∧
    (containerMembers (deleteCore P db).2 P.sectionId P.subSectionId).length
      = (containerOf db.products P.sectionId P.subSectionId).length - 1 ∧
    (∀ p ∈ db.products, p.id ≠ P.id →
      ∃ p', findIn (deleteCore P db).2.products p.id = some p' ∧
        p'.sectionId = p.sectionId ∧ p'.subSectionId = p.subSectionId) ∧
    findIn (deleteCore P db).2.products P.id = none := by
  rcases hP : P.subSectionId with _ | s
  · have hDC := deleteCore_eq_top db P hP
    have hb := delete_branch db P setTopPos none
      (sortByTopOrder (containerOf (db.products.filter fun p => p.id ≠ P.id) P.sectionId none))
      (fun _ _ => rfl) (fun _ _ => rfl) (fun _ _ => rfl) (fun _ _ => rfl)
      (sortByTopOrder_perm _) hnodup hmem hP
    rw [hDC]
    exact ⟨by rw [hb.1], hb.2.1, by rw [show containerMembers { db with products := (renumberF
        setTopPos ((sortByTopOrder (containerOf (db.products.filter fun p => p.id ≠ P.id)
        P.sectionId none)).map (·.id)) 1 (db.products.filter fun p => p.id ≠ P.id)) }
        P.sectionId none = containerOf (renumberF setTopPos ((sortByTopOrder (containerOf
        (db.products.filter fun p => p.id ≠ P.id) P.sectionId none)).map (·.id)) 1
        (db.products.filter fun p => p.id ≠ P.id)) P.sectionId none from rfl,
      hb.2.2.1, hb.1], hb.2.2.2.1, hb.2.2.2.2⟩
  · have hs : s ≠ 0 := fun h => hsub0 (by rw [hP, h])
    have hDC := deleteCore_eq_sub db P s hP hs
    have hb := delete_branch db P setSubPos (some s)
      (sortBySubOrder (containerOf (db.products.filter fun p => p.id ≠ P.id) P.sectionId (some s)))
      (fun _ _ => rfl) (fun _ _ => rfl) (fun _ _ => rfl) (fun _ _ => rfl)
      (sortBySubOrder_perm _) hnodup hmem hP
    rw [hDC]
    exact ⟨by rw [hb.1], hb.2.1, by rw [show containerMembers { db with products := (renumberF
        setSubPos ((sortBySubOrder (containerOf (db.products.filter fun p => p.id ≠ P.id)
        P.sectionId (some s))).map (·.id)) 1 (db.products.filter fun p => p.id ≠ P.id)) }
        P.sectionId (some s) = containerOf (renumberF setSubPos ((sortBySubOrder (containerOf
        (db.products.filter fun p => p.id ≠ P.id) P.sectionId (some s))).map (·.id)) 1
        (db.products.filter fun p => p.id ≠ P.id)) P.sectionId (some s) from rfl,
      hb.2.2.1, hb.1], hb.2.2.2.1, hb.2.2.2.2⟩

/-- Order preservation of one delete branch: surviving members of the
container keep their strict position order after the renumbering. -/
theorem delete_branch_order (db : Db) (P : Product)
    (f : Nat → Product → Product) (sub : Option Nat) (items : List Product)
    (hfid : ∀ v p, (f v p).id = p.id)
    (hfget : ∀ v p, posKey sub (f v p) = v)
    (hsorted : List.Sorted (fun a b => posKey sub a ≤ posKey sub b) items)
    (hitems : items.Perm (containerOf (db.products.filter fun p => p.id ≠ P.id) P.sectionId sub))
    (hnodup : (db.products.map (·.id)).Nodup)
    {q r : Product}
    (hq : q ∈ containerOf db.products P.sectionId sub)
    (hr : r ∈ containerOf db.products P.sectionId sub)
    (hqne : q.id ≠ P.id) (hrne : r.id ≠ P.id)
    (hlt : posKey sub q < posKey sub r) :
    ∀ q1 r1,
      findIn (renumberF f (items.map (·.id)) 1
        (db.products.filter fun p => p.id ≠ P.id)) q.id = some q1 →
      findIn (renumberF f (items.map (·.id)) 1
        (db.products.filter fun p => p.id ≠ P.id)) r.id = some r1 →
      posKey sub q1 < posKey sub r1 := by
  intro q1 r1 hq1 hr1
  have hnodupA : ((db.products.filter fun p => p.id ≠ P.id).map (·.id)).Nodup :=
    nodup_ids_filter _ hnodup _
  have hidsnd : (items.map (·.id)).Nodup :=
    ((hitems.map (·.id)).symm).nodup (container_ids_nodup hnodupA P.sectionId sub)
  have hqA : q ∈ db.products.filter fun p => p.id ≠ P.id :=
    List.mem_filter.mpr ⟨(mem_containerOf.mp hq).1, by simpa using hqne⟩
  have hrA : r ∈ db.products.filter fun p => p.id ≠ P.id :=
    List.mem_filter.mpr ⟨(mem_containerOf.mp hr).1, by simpa using hrne⟩
  have hqCA : q ∈ containerOf (db.products.filter fun p => p.id ≠ P.id) P.sectionId sub :=
    mem_containerOf.mpr ⟨hqA, (mem_containerOf.mp hq).2.1, (mem_containerOf.mp hq).2.2⟩
  have hrCA : r ∈ containerOf (db.products.filter fun p => p.id ≠ P.id) P.sectionId sub :=
    mem_containerOf.mpr ⟨hrA, (mem_containerOf.mp hr).2.1, (mem_containerOf.mp hr).2.2⟩
  have hqI : q ∈ items := hitems.mem_iff.mpr hqCA
  have hrI : r ∈ items := hitems.mem_iff.mpr hrCA
  have hqid : q.id ∈ items.map (·.id) := List.mem_map.mpr ⟨q, hqI, rfl⟩
  have hrid : r.id ∈ items.map (·.id) := List.mem_map.mpr ⟨r, hrI, rfl⟩
  have hfq : findIn (db.products.filter fun p => p.id ≠ P.id) q.id = some q :=
    findIn_of_mem _ hnodupA hqA
  have hfr : findIn (db.products.filter fun p => p.id ≠ P.id) r.id = some r :=
    findIn_of_mem _ hnodupA hrA
  rw [renumberF_findIn_map f hfid _ hidsnd 1 _ q.id, hfq, Option.map_some', if_pos hqid] at hq1
  rw [renumberF_findIn_map f hfid _ hidsnd 1 _ r.id, hfr, Option.map_some', if_pos hrid] at hr1
  have hq1e : q1 = f (1 + List.indexOf q.id (items.map (·.id))) q := (Option.some.inj hq1).symm
  have hr1e : r1 = f (1 + List.indexOf r.id (items.map (·.id))) r := (Option.some.inj hr1).symm
  rw [hq1e, hr1e, hfget, hfget, indexOf_id_map items hidsnd hqI, indexOf_id_map items hidsnd hrI]
  have hidx := sorted_index_lt (posKey sub) items hsorted hqI hrI hlt
  omega

/-- Order preservation of `deleteCore`. -/
theorem deleteCore_order (db : Db) (P : Product)
    (hnodup : (db.products.map (·.id)).Nodup)
    (hsub0 : P.subSectionId ≠ some 0)
    {q r : Product}
    (hq : q ∈ containerOf db.products P.sectionId P.subSectionId)
    (hr : r ∈ containerOf db.products P.sectionId P.subSectionId)
    (hqne : q.id ≠ P.id) (hrne : r.id ≠ P.id)
    (hlt : posKey P.subSectionId q < posKey P.subSectionId r) :
    ∀ q1 r1, findIn (deleteCore P db).2.products q.id = some q1 →
      findIn (deleteCore P db).2.products r.id = some r1 →
      posKey P.subSectionId q1 < posKey P.subSectionId r1 := by
  rcases hP : P.subSectionId with _ | s
  · rw [hP] at hq hr hlt
    rw [deleteCore_eq_top db P hP]
    exact delete_branch_order db P setTopPos none
      (sortByTopOrder (containerOf (db.products.filter fun p => p.id ≠ P.id) P.sectionId none))
      (fun _ _ => rfl) (fun _ _ => rfl) (sortByTopOrder_sorted _) (sortByTopOrder_perm _)
      hnodup hq hr hqne hrne hlt
  · have hs : s ≠ 0 := fun h => hsub0 (by rw [hP, h])
    rw [hP] at hq hr hlt
    rw [deleteCore_eq_sub db P s hP hs]
    exact delete_branch_order db P setSubPos (some s)
      (sortBySubOrder (containerOf (db.products.filter fun p => p.id ≠ P.id) P.sectionId (some s)))
      (fun _ _ => rfl) (fun _ _ => rfl) (sortBySubOrder_sorted _) (sortBySubOrder_perm _)
      hnodup hq hr hqne hrne hlt

/-! ## Claim theorems -/

/-- C3: for every `n`-member container that is dense and every member at
position `r`, deleting that member yields an `(n-1)`-member container whose
positions are exactly `{1..n-1}`; every remaining pair of members keeps its
relative order, and no product outside the deleted one changes container
membership. -/
theorem c3_delete_conserves_density
    (db : Db) (pid : Nat) (P : Product) (n rpos : Nat)
    (hnodup : (db.products.map (·.id)).Nodup)
    (hpid : pid ≠ 0)
    (hfind : findIn db.products pid = some P)
    (hsub0 : P.subSectionId ≠ some 0)
    (hn : (containerMembers db P.sectionId P.subSectionId).length = n)
    (hdense : Dense db P.sectionId P.subSectionId)
    (hrpos : posKey P.subSectionId P = rpos) :
    (deleteProduct (some pid) none db).1 = .ok P.id (n - 1) ∧
    Dense (deleteProduct (some pid) none db).2 P.sectionId P.subSectionId ∧
    (containerMembers (deleteProduct (some pid) none db).2 P.sectionId P.subSectionId).length
      = n - 1 ∧
    (∀ p ∈ db.products, p.id ≠ pid →
      ∃ p', findIn (deleteProduct (some pid) none db).2.products p.id = some p' ∧
        p'.sectionId = p.sectionId ∧ p'.subSectionId = p.subSectionId) ∧
    (∀ q ∈ containerMembers db P.sectionId P.subSectionId,
     ∀ r ∈ containerMembers db P.sectionId P.subSectionId,
      q.id ≠ pid → r.id ≠ pid →
      posKey P.subSectionId q < posKey P.subSectionId r →
      ∀ q1 r1, findIn (deleteProduct (some pid) none db).2.products q.id = some q1 →
        findIn (deleteProduct (some pid) none db).2.products r.id = some r1 →
        posKey P.subSectionId q1 < posKey P.subSectionId r1) ∧
    findIn (deleteProduct (some pid) none db).2.products pid = none := by
  have hPid : P.id = pid := findIn_id hfind
  have hmem : P ∈ db.products := List.mem_of_find?_eq_some hfind
  rw [deleteProduct_byId db pid P hpid hfind]
  have hc := deleteCore_correct db P hnodup hmem hsub0
  have hn' : (containerOf db.products P.sectionId P.subSectionId).length = n := hn
  refine ⟨by rw [hc.1, hn'], hc.2.1, by rw [hc.2.2.1, hn'], ?_, ?_, ?_⟩
  · intro p hp hne
    exact hc.2.2.2.1 p hp (by rw [hPid]; exact hne)
  · intro q hqm r hrm hqne hrne hlt
    exact deleteCore_order db P hnodup hsub0 hqm hrm
      (by rw [hPid]; exact hqne) (by rw [hPid]; exact hrne) hlt
  · rw [← hPid]
    exact hc.2.2.2.2

/-- Witness for C3: deleting the middle member of the dense three-member
subsection of `exDbSub`. -/
theorem c3_delete_conserves_density_witness :
    ((exDbSub.products.map (·.id)).Nodup ∧ (11 : Nat) ≠ 0 ∧
      findIn exDbSub.products 11 = some (mkP 11 "Campari" 1 (some 2) 0 2) ∧
      (containerMembers exDbSub 1 (some 2)).length = 3 ∧
      Dense exDbSub 1 (some 2)) ∧
    (deleteProduct (some 11) none exDbSub).1 = .ok 11 2 ∧
    Dense (deleteProduct (some 11) none exDbSub).2 1 (some 2) ∧
    (containerMembers (deleteProduct (some 11) none exDbSub).2 1 (some 2)).length = 2 :=
  ⟨by decide,
    by
      have h := c3_delete_conserves_density exDbSub 11 (mkP 11 "Campari" 1 (some 2) 0 2) 3 2
        (by decide) (by decide) (by decide) (by decide) (by decide) (by decide) (by decide)
      exact ⟨h.1, h.2.1, h.2.2.1⟩⟩

/-- Reduction of `updateProduct` when the product is identified by id and
no container selector is supplied: the target section is the product's own;
control reaches `updateCore` with `targetSubId` the product's current
subsection. -/
theorem updateProduct_noSelector (a : UpdateArgs) (db : Db) (pid : Nat) (P : Product) (S : Section)
    (hid : a.id = some pid) (hpid : pid ≠ 0)
    (hnm : a.name = none)
    (hfields : (tBool a.active || tRat a.price || tNat a.sectionId || tStr a.sectionName
      || tNat a.subSectionId || tStr a.subSectionName || a.subSectionOrder.isSome
      || a.order.isSome || tStr a.description || tStr a.name) = true)
    (hfind : findIn db.products pid = some P)
    (hsecId : a.sectionId = none) (hsecNm : a.sectionName = none)
    (hsubId : a.subSectionId = none) (hsubNm : a.subSectionName = none)
    (hsec : findSectionById db P.sectionId = some S)
    (hcl : S.subSection = false ∨ tNat P.subSectionId = true) :
    updateProduct a db = updateCore a db (.byId pid) P S P.subSectionId := by
  have hT : tNat a.id = true := by rw [hid]; simp [tNat, hpid]
  unfold updateProduct
  rw [if_neg (by simp [hT]), if_neg (by simp [hfields]), if_pos hT, hid]
  show (match findByWhere db.products (PWhere.byId ((some pid).getD 0)) with
    | none => (⟨.errProductNotFound, db, []⟩ : UpdateRes)
    | some existing =>
      let usedSelector := tNat a.sectionId || tStr a.sectionName
      let tsOpt : Option Section :=
        if usedSelector then
          if tNat a.sectionId then findSectionById db (a.sectionId.getD 0)
          else findSectionByName db (a.sectionName.getD "")
        else findSectionById db existing.sectionId
      match tsOpt with
      | none =>
        if usedSelector then ⟨.errTargetSectionNotFound, db, []⟩
        else ⟨.errInternalNullSection, db, []⟩
      | some targetSection =>
        if targetSection.subSection ∧ ¬ tNat a.subSectionId ∧ ¬ tStr a.subSectionName ∧
            (tNat a.sectionId ∨ tStr a.sectionName ∨ ¬ tNat existing.subSectionId) then
          ⟨.needSubSection targetSection.subSections, db, []⟩
        else
          let targetSubId0 : Option Nat := a.subSectionId.or existing.subSectionId
          if tStr a.subSectionName then
            match targetSection.subSections.find?
                (fun s => lc s.name == lc (a.subSectionName.getD "")) with
            | none => ⟨.errSubNotFound targetSection.subSections, db, []⟩
            | some sub => updateCore a db (PWhere.byId ((some pid).getD 0)) existing targetSection (some sub.id)
          else updateCore a db (PWhere.byId ((some pid).getD 0)) existing targetSection targetSubId0)
    = updateCore a db (.byId pid) P S P.subSectionId
  rw [show (some pid).getD 0 = pid from rfl, findByWhere_byId, hfind]
  show (let usedSelector := tNat a.sectionId || tStr a.sectionName
    let tsOpt : Option Section :=
      if usedSelector then
        if tNat a.sectionId then findSectionById db (a.sectionId.getD 0)
        else findSectionByName db (a.sectionName.getD "")
      else findSectionById db P.sectionId
    match tsOpt with
    | none =>
      if usedSelector then (⟨.errTargetSectionNotFound, db, []⟩ : UpdateRes)
      else ⟨.errInternalNullSection, db, []⟩
    | some targetSection =>
      if targetSection.subSection ∧ ¬ tNat a.subSectionId ∧ ¬ tStr a.subSectionName ∧
          (tNat a.sectionId ∨ tStr a.sectionName ∨ ¬ tNat P.subSectionId) then
        ⟨.needSubSection targetSection.subSections, db, []⟩
      else
        let targetSubId0 : Option Nat := a.subSectionId.or P.subSectionId
        if tStr a.subSectionName then
          match targetSection.subSections.find?
              (fun s => lc s.name == lc (a.subSectionName.getD "")) with
          | none => ⟨.errSubNotFound targetSection.subSections, db, []⟩
          | some sub => updateCore a db (PWhere.byId pid) P targetSection (some sub.id)
        else updateCore a db (PWhere.byId pid) P targetSection targetSubId0)
    = updateCore a db (.byId pid) P S P.subSectionId
  rw [hsecId, hsecNm, hsubId, hsubNm]
  show (match findSectionById db P.sectionId with
    | none => (⟨.errInternalNullSection, db, []⟩ : UpdateRes)
    | some targetSection =>
      if targetSection.subSection ∧ ¬ tNat (none : Option Nat) ∧ ¬ tStr (none : Option String) ∧
          (tNat (none : Option Nat) ∨ tStr (none : Option String) ∨ ¬ tNat P.subSectionId) then
        ⟨.needSubSection targetSection.subSections, db, []⟩
      else updateCore a db (PWhere.byId pid) P targetSection ((none : Option Nat).or P.subSectionId))
    = updateCore a db (.byId pid) P S P.subSectionId
  rw [hsec]
  show (if S.subSection ∧ ¬ tNat (none : Option Nat) ∧ ¬ tStr (none : Option String) ∧
      (tNat (none : Option Nat) ∨ tStr (none : Option String) ∨ ¬ tNat P.subSectionId) then
      (⟨.needSubSection S.subSections, db, []⟩ : UpdateRes)
    else updateCore a db (PWhere.byId pid) P S ((none : Option Nat).or P.subSectionId))
    = updateCore a db (.byId pid) P S P.subSectionId
  rw [if_neg (by rcases hcl with h | h <;>
    simp [h, show tNat (none : Option Nat) = false from rfl,
      show tStr (none : Option String) = false from rfl])]
  rfl

/-- Reduction of `updateProduct` when the product is identified by id and a
target section id is supplied (no name selectors): control reaches
`updateCore` with the resolved target section and
`targetSubId = subSectionId ?? existing.subSectionId`. -/
theorem updateProduct_withSection (a : UpdateArgs) (db : Db) (pid sid2 : Nat)
    (P : Product) (S2 : Section)
    (hid : a.id = some pid) (hpid : pid ≠ 0)
    (hfind : findIn db.products pid = some P)
    (hsid : a.sectionId = some sid2) (hs2 : sid2 ≠ 0)
    (hsecNm : a.sectionName = none) (hsubNm : a.subSectionName = none)
    (hsec2 : findSectionById db sid2 = some S2)
    (hcl : S2.subSection = false ∨ tNat a.subSectionId = true) :
    updateProduct a db = updateCore a db (.byId pid) P S2 (a.subSectionId.or P.subSectionId) := by
  have hT : tNat a.id = true := by rw [hid]; simp [tNat, hpid]
  have hTs : tNat a.sectionId = true := by rw [hsid]; simp [tNat, hs2]
  unfold updateProduct
  rw [if_neg (by simp [hT]), if_neg (by simp [hTs]), if_pos hT, hid]
  show (match findByWhere db.products (PWhere.byId ((some pid).getD 0)) with
    | none => (⟨.errProductNotFound, db, []⟩ : UpdateRes)
    | some existing =>
      let usedSelector := tNat a.sectionId || tStr a.sectionName
      let tsOpt : Option Section :=
        if usedSelector then
          if tNat a.sectionId then findSectionById db (a.sectionId.getD 0)
          else findSectionByName db (a.sectionName.getD "")
        else findSectionById db existing.sectionId
      match tsOpt with
      | none =>
        if usedSelector then ⟨.errTargetSectionNotFound, db, []⟩
        else ⟨.errInternalNullSection, db, []⟩
      | some targetSection =>
        if targetSection.subSection ∧ ¬ tNat a.subSectionId ∧ ¬ tStr a.subSectionName ∧
            (tNat a.sectionId ∨ tStr a.sectionName ∨ ¬ tNat existing.subSectionId) then
          ⟨.needSubSection targetSection.subSections, db, []⟩
        else
          let targetSubId0 : Option Nat := a.subSectionId.or existing.subSectionId
          if tStr a.subSectionName then
            match targetSection.subSections.find?
                (fun s => lc s.name == lc (a.subSectionName.getD "")) with
            | none => ⟨.errSubNotFound targetSection.subSections, db, []⟩
            | some sub => updateCore a db (PWhere.byId ((some pid).getD 0)) existing targetSection (some sub.id)
          else updateCore a db (PWhere.byId ((some pid).getD 0)) existing targetSection targetSubId0)
    = updateCore a db (.byId pid) P S2 (a.subSectionId.or P.subSectionId)
  rw [show (some pid).getD 0 = pid from rfl, findByWhere_byId, hfind]
  rw [hTs]
  show (let tsOpt : Option Section :=
      if (true || tStr a.sectionName) = true then
        if (true : Bool) then findSectionById db (a.sectionId.getD 0)
        else findSectionByName db (a.sectionName.getD "")
      else findSectionById db P.sectionId
    match tsOpt with
    | none =>
      if (true || tStr a.sectionName) = true then (⟨.errTargetSectionNotFound, db, []⟩ : UpdateRes)
      else ⟨.errInternalNullSection, db, []⟩
    | some targetSection =>
      if targetSection.subSection ∧ ¬ tNat a.subSectionId ∧ ¬ tStr a.subSectionName ∧
          ((true : Bool) ∨ tStr a.sectionName ∨ ¬ tNat P.subSectionId) then
        ⟨.needSubSection targetSection.subSections, db, []⟩
      else
        let targetSubId0 : Option Nat := a.subSectionId.or P.subSectionId
        if tStr a.subSectionName then
          match targetSection.subSections.find?
              (fun s => lc s.name == lc (a.subSectionName.getD "")) with
          | none => ⟨.errSubNotFound targetSection.subSections, db, []⟩
          | some sub => updateCore a db (PWhere.byId pid) P targetSection (some sub.id)
        else updateCore a db (PWhere.byId pid) P targetSection targetSubId0)
    = updateCore a db (.byId pid) P S2 (a.subSectionId.or P.subSectionId)
  rw [hsid, hsubNm]
  show (match findSectionById db ((some sid2).getD 0) with
    | none => (⟨.errTargetSectionNotFound, db, []⟩ : UpdateRes)
    | some targetSection =>
      if targetSection.subSection ∧ ¬ tNat a.subSectionId ∧ ¬ tStr (none : Option String) ∧
          ((true : Bool) ∨ tStr a.sectionName ∨ ¬ tNat P.subSectionId) then
        ⟨.needSubSection targetSection.subSections, db, []⟩
      else updateCore a db (PWhere.byId pid) P targetSection (a.subSectionId.or P.subSectionId))
    = updateCore a db (.byId pid) P S2 (a.subSectionId.or P.subSectionId)
  rw [show (some sid2).getD 0 = sid2 from rfl, hsec2]
  show (if S2.subSection ∧ ¬ tNat a.subSectionId ∧ ¬ tStr (none : Option String) ∧
      ((true : Bool) ∨ tStr a.sectionName ∨ ¬ tNat P.subSectionId) then
      (⟨.needSubSection S2.subSections, db, []⟩ : UpdateRes)
    else updateCore a db (PWhere.byId pid) P S2 (a.subSectionId.or P.subSectionId))
    = updateCore a db (.byId pid) P S2 (a.subSectionId.or P.subSectionId)
  rw [if_neg (by rcases hcl with h | h <;> simp [h])]

theorem findSectionById_id {db : Db} {i : Nat} {S : Section}
    (h : findSectionById db i = some S) : S.id = i := by
  unfold findSectionById at h
  have := List.find?_some h
  exact beq_iff_eq.mp this

/-- The reorder block does nothing when no `subSectionOrder` was sent. -/
theorem reorderPhase_none (a : UpdateArgs) (db : Db) (wh : PWhere) (P : Product)
    (S : Section) (tsub : Option Nat) (h : a.subSectionOrder = none) :
    reorderPhase a db wh P S tsub = (⟨db, []⟩, P) := by
  unfold reorderPhase
  rw [h]

/-- Unfolding of the reorder block when a `subSectionOrder` was sent and the
target is a subsection. -/
theorem reorderPhase_subsection (a : UpdateArgs) (db : Db) (wh : PWhere) (P : Product)
    (S : Section) (t p : Nat) (hso : a.subSectionOrder = some p)
    (hS : S.subSection = true) (ht : t ≠ 0) :
    reorderPhase a db wh P S (some t)
      = (let items := sortBySubOrder (containerMembers db S.id (some t))
         let targetPos := max 1 (min p (max items.length 1))
         let isSameSub := P.sectionId = S.id ∧ P.subSectionId = some t
         if isSameSub ∧ P.subSectionOrder = targetPos then (⟨db, []⟩, P)
         else
           let r0 : Run := ⟨db, []⟩
           let r1 :=
             if isSameSub ∧ P.subSectionOrder ≠ 0 then
               if P.subSectionOrder < targetPos then
                 shiftLoop
                   (fun it => a.id ≠ some it.id ∧ it.subSectionOrder ≠ 0 ∧
                     P.subSectionOrder < it.subSectionOrder ∧ it.subSectionOrder ≤ targetPos)
                   (fun it => { subSectionOrder := some (it.subSectionOrder - 1) }) items r0
               else
                 shiftLoop
                   (fun it => a.id ≠ some it.id ∧ it.subSectionOrder ≠ 0 ∧
                     targetPos ≤ it.subSectionOrder ∧ it.subSectionOrder < P.subSectionOrder)
                   (fun it => { subSectionOrder := some (it.subSectionOrder + 1) }) items r0
             else
               shiftLoop
                 (fun it => it.subSectionOrder ≠ 0 ∧ targetPos ≤ it.subSectionOrder)
                 (fun it => { subSectionOrder := some (it.subSectionOrder + 1) }) items r0
           let r2 := emit wh
             { sectionId := some S.id, subSectionId := some (some t),
               subSectionOrder := some targetPos, order := some 0 } r1
           (r2, { P with
                  sectionId := S.id, subSectionId := some t, subSectionOrder := targetPos })) := by
  unfold reorderPhase
  rw [hso]
  dsimp only []
  rw [if_pos (show (S.subSection = true) ∧ (tNat (some t) = true)
    from ⟨hS, by simp [tNat, ht]⟩)]
  rfl

/-- Unfolding of the tail of `updateCore` once the reorder block's result
and the row hit by the final update are known. -/
theorem updateCore_eq (a : UpdateArgs) (db : Db) (wh : PWhere) (P0 : Product)
    (S : Section) (tsub : Option Nat) (r1 : Run) (E1 : Product) (row : Product)
    (hreo : reorderPhase a db wh P0 S tsub = (r1, E1))
    (hrow : findByWhere r1.db.products wh = some row) :
    updateCore a db wh P0 S tsub
      = (let data0 : UpdateData :=
           { name := a.name, description := a.description, active := a.active, price := a.price }
         let movingSection := S.id ≠ E1.sectionId
         let movingSub := tsub ≠ E1.subSectionId
         let data1 : UpdateData :=
           if movingSection ∨ movingSub ∨ tNat a.sectionId ∨ tStr a.sectionName
               ∨ tNat a.subSectionId ∨ tStr a.subSectionName then
             if S.subSection ∧ tNat tsub ∧ a.subSectionOrder.isSome then
               { data0 with sectionId := some S.id, subSectionId := some tsub,
                            order := some 0 }
             else if S.subSection ∧ tNat tsub then
               { data0 with sectionId := some S.id, subSectionId := some tsub,
                            subSectionOrder := some (maxSubOrder r1.db S.id (tsub.getD 0) + 1),
                            order := some 0 }
             else
               { data0 with sectionId := some S.id, subSectionId := some none,
                            subSectionOrder := some 0,
                            order := some (maxTopOrder r1.db S.id + 1) }
           else
             { data0 with order := a.order,
                          subSectionId := match a.subSectionId with
                            | some v => some (some v)
                            | none => none }
         let r2 := emit wh data1 r1
         let movedOutOfPrevSub := P0.subSectionId ≠ tsub ∨ P0.sectionId ≠ S.id
         let r3 :=
           if tNat P0.subSectionId ∧ movedOutOfPrevSub then
             compactSub P0.sectionId (P0.subSectionId.getD 0) r2
           else r2
         { outcome := .ok (applyData data1 row), db := r3.db, writes := r3.writes }) := by
  unfold updateCore
  rw [hreo]
  simp only [hrow]

/-- Tail of `updateCore` when the product stays in its own container and no
container selector was sent: the final update writes the simple fields and
the raw `order` argument, and no compaction runs. -/
theorem updateCore_noMove (a : UpdateArgs) (db : Db) (wh : PWhere) (P0 : Product)
    (S : Section) (tsub : Option Nat) (r1 : Run) (E1 row : Product)
    (hreo : reorderPhase a db wh P0 S tsub = (r1, E1))
    (hrow : findByWhere r1.db.products wh = some row)
    (hsecE : E1.sectionId = S.id) (hsubE : E1.subSectionId = tsub)
    (hsecId : a.sectionId = none) (hsecNm : a.sectionName = none)
    (hsubId : a.subSectionId = none) (hsubNm : a.subSectionName = none)
    (hprevSub : P0.subSectionId = tsub) (hprevSec : P0.sectionId = S.id) :
    updateCore a db wh P0 S tsub
      = { outcome := .ok (applyData (simpleData a) row),
          db := (emit wh (simpleData a) r1).db,
          writes := (emit wh (simpleData a) r1).writes } := by
  rw [updateCore_eq a db wh P0 S tsub r1 E1 row hreo hrow]
  dsimp only []
  rw [hsecId, hsecNm, hsubId, hsubNm]
  rw [if_neg (by
    simp [hsecE, hsubE, show tNat (none : Option Nat) = false from rfl,
      show tStr (none : Option String) = false from rfl])]
  rw [if_neg (by simp [hprevSub, hprevSec])]
  rfl

/-- C5 (amended): a reorder sent through `subSectionOrder` against the
product's own subsection of current size `n` is silently clamped to
`p' = max 1 (min p (max n 1))` and succeeds with the product at `p'`;
a reorder sent through the top-level `order` field is **not** clamped —
the requested value is written as is. -/
theorem c5_subsection_reorder_clamped_top_order_raw :
    (∀ (db : Db) (pid t p : Nat) (P : Product) (S : Section),
      pid ≠ 0 → 1 ≤ p →
      findIn db.products pid = some P →
      findSectionById db P.sectionId = some S →
      S.subSection = true →
      P.subSectionId = some t → t ≠ 0 →
      P.subSectionOrder ≠ 0 →
      ∃ P2, (updateProduct { id := some pid, subSectionOrder := some p } db).outcome = .ok P2 ∧
        findIn (updateProduct { id := some pid, subSectionOrder := some p } db).db.products pid
          = some P2 ∧
        P2.subSectionOrder
          = max 1 (min p (max (containerMembers db P.sectionId (some t)).length 1)) ∧
        P2.sectionId = P.sectionId ∧ P2.subSectionId = some t) ∧
    (∀ (db : Db) (pid v : Nat) (P : Product) (S : Section),
      pid ≠ 0 →
      findIn db.products pid = some P →
      findSectionById db P.sectionId = some S →
      (S.subSection = false ∨ tNat P.subSectionId = true) →
      ∃ P2, (updateProduct { id := some pid, order := some v } db).outcome = .ok P2 ∧
        findIn (updateProduct { id := some pid, order := some v } db).db.products pid
          = some P2 ∧
        P2.order = v ∧ P2.subSectionOrder = P.subSectionOrder ∧
        P2.sectionId = P.sectionId ∧ P2.subSectionId = P.subSectionId) := by
  constructor
  · intro db pid t p P S hpid hp1 hfind hsec hS hPsub ht hc0
    have hPid : P.id = pid := findIn_id hfind
    have hSid : S.id = P.sectionId := findSectionById_id hsec
    have hdisp := updateProduct_noSelector { id := some pid, subSectionOrder := some p } db pid P S
      rfl hpid rfl rfl hfind rfl rfl rfl rfl hsec (Or.inr (by rw [hPsub]; simp [tNat, ht]))
    rw [hdisp, hPsub]
    have hpm : pMatch (.byId pid) P = true := by simp [pMatch, hPid]
    by_cases hceq : P.subSectionOrder
        = max 1 (min p (max (sortBySubOrder (containerMembers db S.id (some t))).length 1))
    · have hreo : reorderPhase { id := some pid, subSectionOrder := some p } db
          (.byId pid) P S (some t) = (⟨db, []⟩, P) := by
        rw [reorderPhase_subsection _ db _ P S t p rfl hS ht]
        dsimp only []
        rw [if_pos ⟨⟨hSid.symm, hPsub⟩, hceq⟩]
      have hrow : findByWhere (⟨db, []⟩ : Run).db.products (.byId pid) = some P := by
        rw [show (⟨db, []⟩ : Run).db = db from rfl, findByWhere_byId]
        exact hfind
      have hfin := updateCore_noMove { id := some pid, subSectionOrder := some p } db
        (.byId pid) P S (some t) ⟨db, []⟩ P P hreo hrow hSid.symm hPsub
        rfl rfl rfl rfl hPsub hSid.symm
      rw [hfin, show simpleData { id := some pid, subSectionOrder := some p } = {} from rfl]
      refine ⟨P, ?_, ?_, ?_, rfl, hPsub⟩
      · show UpdateOutcome.ok (applyData {} P) = .ok P
        rw [applyData_empty]
      · show findIn (emit (.byId pid) {} ⟨db, []⟩).db.products pid = some P
        rw [emit_products, applyWrite_empty]
        exact hfind
      · rw [hceq, sortBySubOrder_length, hSid]
    · have hcond : ((P.sectionId = S.id ∧ P.subSectionId = some t) ∧ P.subSectionOrder ≠ 0) :=
        ⟨⟨hSid.symm, hPsub⟩, hc0⟩
      by_cases hlt : P.subSectionOrder
          < max 1 (min p (max (sortBySubOrder (containerMembers db S.id (some t))).length 1))
      · have hreo : reorderPhase { id := some pid, subSectionOrder := some p } db
            (.byId pid) P S (some t)
            = (emit (.byId pid)
                { sectionId := some S.id, subSectionId := some (some t),
                  subSectionOrder := some (max 1 (min p (max (sortBySubOrder
                    (containerMembers db S.id (some t))).length 1))), order := some 0 }
                (shiftLoop
                  (fun it => ({ id := some pid, subSectionOrder := some p } : UpdateArgs).id
                      ≠ some it.id ∧ it.subSectionOrder ≠ 0 ∧
                    P.subSectionOrder < it.subSectionOrder ∧ it.subSectionOrder
                      ≤ max 1 (min p (max (sortBySubOrder
                        (containerMembers db S.id (some t))).length 1)))
                  (fun it => { subSectionOrder := some (it.subSectionOrder - 1) })
                  (sortBySubOrder (containerMembers db S.id (some t))) ⟨db, []⟩),
              { P with
                sectionId := S.id, subSectionId := some t
                subSectionOrder := max 1 (min p (max (sortBySubOrder
                  (containerMembers db S.id (some t))).length 1)) }) := by
          rw [reorderPhase_subsection _ db _ P S t p rfl hS ht]
          dsimp only []
          rw [if_neg (fun hand => hceq hand.2), if_pos hcond, if_pos hlt]
        have hLfind : findIn (shiftLoop
            (fun it => ({ id := some pid, subSectionOrder := some p } : UpdateArgs).id
                ≠ some it.id ∧ it.subSectionOrder ≠ 0 ∧
              P.subSectionOrder < it.subSectionOrder ∧ it.subSectionOrder
                ≤ max 1 (min p (max (sortBySubOrder
                  (containerMembers db S.id (some t))).length 1)))
            (fun it => { subSectionOrder := some (it.subSectionOrder - 1) })
            (sortBySubOrder (containerMembers db S.id (some t))) ⟨db, []⟩).db.products pid
            = some P := by
          rw [shiftLoop_findIn _ _ pid _ _
            (fun it _ hcnd he => hcnd.1 (by rw [he]))]
          exact hfind
        have hrow : findByWhere (emit (.byId pid)
            { sectionId := some S.id, subSectionId := some (some t),
              subSectionOrder := some (max 1 (min p (max (sortBySubOrder
                (containerMembers db S.id (some t))).length 1))), order := some 0 }
            (shiftLoop
              (fun it => ({ id := some pid, subSectionOrder := some p } : UpdateArgs).id
                  ≠ some it.id ∧ it.subSectionOrder ≠ 0 ∧
                P.subSectionOrder < it.subSectionOrder ∧ it.subSectionOrder
                  ≤ max 1 (min p (max (sortBySubOrder
                    (containerMembers db S.id (some t))).length 1)))
              (fun it => { subSectionOrder := some (it.subSectionOrder - 1) })
              (sortBySubOrder (containerMembers db S.id (some t))) ⟨db, []⟩)).db.products
            (.byId pid)
            = some (applyData
              { sectionId := some S.id, subSectionId := some (some t),
                subSectionOrder := some (max 1 (min p (max (sortBySubOrder
                  (containerMembers db S.id (some t))).length 1))), order := some 0 } P) := by
          rw [findByWhere_byId, emit_products, findIn_applyWrite, hLfind,
            Option.map_some', if_pos hpm]
        have hfin := updateCore_noMove { id := some pid, subSectionOrder := some p } db
          (.byId pid) P S (some t) _ _ _ hreo hrow rfl rfl rfl rfl rfl rfl hPsub hSid.symm
        rw [hfin, show simpleData { id := some pid, subSectionOrder := some p } = {} from rfl]
        refine ⟨applyData
            { sectionId := some S.id, subSectionId := some (some t),
              subSectionOrder := some (max 1 (min p (max (sortBySubOrder
                (containerMembers db S.id (some t))).length 1))), order := some 0 } P,
          ?_, ?_, ?_, ?_, ?_⟩
        · show UpdateOutcome.ok (applyData {} _) = _
          rw [applyData_empty]
        · show findIn (emit (.byId pid) {} _).db.products pid = _
          rw [emit_products, applyWrite_empty]
          rw [findByWhere_byId] at hrow
          rw [hrow]
        · show max 1 (min p (max (sortBySubOrder
            (containerMembers db S.id (some t))).length 1))
            = max 1 (min p (max (containerMembers db P.sectionId (some t)).length 1))
          rw [sortBySubOrder_length, hSid]
        · show S.id = P.sectionId
          exact hSid
        · rfl
      · have hreo : reorderPhase { id := some pid, subSectionOrder := some p } db
            (.byId pid) P S (some t)
            = (emit (.byId pid)
                { sectionId := some S.id, subSectionId := some (some t),
                  subSectionOrder := some (max 1 (min p (max (sortBySubOrder
                    (containerMembers db S.id (some t))).length 1))), order := some 0 }
                (shiftLoop
                  (fun it => ({ id := some pid, subSectionOrder := some p } : UpdateArgs).id
                      ≠ some it.id ∧ it.subSectionOrder ≠ 0 ∧
                    max 1 (min p (max (sortBySubOrder
                      (containerMembers db S.id (some t))).length 1)) ≤ it.subSectionOrder ∧
                    it.subSectionOrder < P.subSectionOrder)
                  (fun it => { subSectionOrder := some (it.subSectionOrder + 1) })
                  (sortBySubOrder (containerMembers db S.id (some t))) ⟨db, []⟩),
              { P with
                sectionId := S.id, subSectionId := some t
                subSectionOrder := max 1 (min p (max (sortBySubOrder
                  (containerMembers db S.id (some t))).length 1)) }) := by
          rw [reorderPhase_subsection _ db _ P S t p rfl hS ht]
          dsimp only []
          rw [if_neg (fun hand => hceq hand.2), if_pos hcond, if_neg hlt]
        have hLfind : findIn (shiftLoop
            (fun it => ({ id := some pid, subSectionOrder := some p } : UpdateArgs).id
                ≠ some it.id ∧ it.subSectionOrder ≠ 0 ∧
              max 1 (min p (max (sortBySubOrder
                (containerMembers db S.id (some t))).length 1)) ≤ it.subSectionOrder ∧
              it.subSectionOrder < P.subSectionOrder)
            (fun it => { subSectionOrder := some (it.subSectionOrder + 1) })
            (sortBySubOrder (containerMembers db S.id (some t))) ⟨db, []⟩).db.products pid
            = some P := by
          rw [shiftLoop_findIn _ _ pid _ _
            (fun it _ hcnd he => hcnd.1 (by rw [he]))]
          exact hfind
        have hrow : findByWhere (emit (.byId pid)
            { sectionId := some S.id, subSectionId := some (some t),
              subSectionOrder := some (max 1 (min p (max (sortBySubOrder
                (containerMembers db S.id (some t))).length 1))), order := some 0 }
            (shiftLoop
              (fun it => ({ id := some pid, subSectionOrder := some p } : UpdateArgs).id
                  ≠ some it.id ∧ it.subSectionOrder ≠ 0 ∧
                max 1 (min p (max (sortBySubOrder
                  (containerMembers db S.id (some t))).length 1)) ≤ it.subSectionOrder ∧
                it.subSectionOrder < P.subSectionOrder)
              (fun it => { subSectionOrder := some (it.subSectionOrder + 1) })
              (sortBySubOrder (containerMembers db S.id (some t))) ⟨db, []⟩)).db.products
            (.byId pid)
            = some (applyData
              { sectionId := some S.id, subSectionId := some (some t),
                subSectionOrder := some (max 1 (min p (max (sortBySubOrder
                  (containerMembers db S.id (some t))).length 1))), order := some 0 } P) := by
          rw [findByWhere_byId, emit_products, findIn_applyWrite, hLfind,
            Option.map_some', if_pos hpm]
        have hfin := updateCore_noMove { id := some pid, subSectionOrder := some p } db
          (.byId pid) P S (some t) _ _ _ hreo hrow rfl rfl rfl rfl rfl rfl hPsub hSid.symm
        rw [hfin, show simpleData { id := some pid, subSectionOrder := some p } = {} from rfl]
        refine ⟨applyData
            { sectionId := some S.id, subSectionId := some (some t),
              subSectionOrder := some (max 1 (min p (max (sortBySubOrder
                (containerMembers db S.id (some t))).length 1))), order := some 0 } P,
          ?_, ?_, ?_, ?_, ?_⟩
        · show UpdateOutcome.ok (applyData {} _) = _
          rw [applyData_empty]
        · show findIn (emit (.byId pid) {} _).db.products pid = _
          rw [emit_products, applyWrite_empty]
          rw [findByWhere_byId] at hrow
          rw [hrow]
        · show max 1 (min p (max (sortBySubOrder
            (containerMembers db S.id (some t))).length 1))
            = max 1 (min p (max (containerMembers db P.sectionId (some t)).length 1))
          rw [sortBySubOrder_length, hSid]
        · show S.id = P.sectionId
          exact hSid
        · rfl
  · intro db pid v P S hpid hfind hsec hcl
    have hPid : P.id = pid := findIn_id hfind
    have hSid : S.id = P.sectionId := findSectionById_id hsec
    have hpm : pMatch (.byId pid) P = true := by simp [pMatch, hPid]
    have hdisp := updateProduct_noSelector { id := some pid, order := some v } db pid P S
      rfl hpid rfl rfl hfind rfl rfl rfl rfl hsec hcl
    rw [hdisp]
    have hreo : reorderPhase { id := some pid, order := some v } db
        (.byId pid) P S P.subSectionId = (⟨db, []⟩, P) :=
      reorderPhase_none _ db _ P S P.subSectionId rfl
    have hrow : findByWhere (⟨db, []⟩ : Run).db.products (.byId pid) = some P := by
      rw [show (⟨db, []⟩ : Run).db = db from rfl, findByWhere_byId]
      exact hfind
    have hfin := updateCore_noMove { id := some pid, order := some v } db
      (.byId pid) P S P.subSectionId ⟨db, []⟩ P P hreo hrow hSid.symm rfl
      rfl rfl rfl rfl rfl hSid.symm
    rw [hfin, show simpleData { id := some pid, order := some v }
      = { order := some v } from rfl]
    refine ⟨applyData { order := some v } P, rfl, ?_, rfl, rfl, rfl, rfl⟩
    show findIn (emit (.byId pid) { order := some v } ⟨db, []⟩).db.products pid = _
    rw [emit_products, findIn_applyWrite,
      show findIn (⟨db, []⟩ : Run).db.products pid = some P from hfind,
      Option.map_some', if_pos hpm]

/-- Witness for C5: reordering the first member of a three-member
subsection to the out-of-range target `99` succeeds and clamps to `3`. -/
theorem c5_subsection_reorder_clamped_witness :
    ((10 : Nat) ≠ 0 ∧ (1 : Nat) ≤ 99 ∧
      findIn exDbSub.products 10 = some (mkP 10 "Fernet" 1 (some 2) 0 1) ∧
      findSectionById exDbSub 1 = some ⟨1, "Tragos", true, [⟨2, "Vodka"⟩]⟩ ∧
      max 1 (min 99 (max (containerMembers exDbSub 1 (some 2)).length 1)) = 3) ∧
    (∃ P2, (updateProduct { id := some 10, subSectionOrder := some 99 } exDbSub).outcome
        = .ok P2 ∧
      findIn (updateProduct { id := some 10, subSectionOrder := some 99 } exDbSub).db.products 10
        = some P2 ∧
      P2.subSectionOrder
        = max 1 (min 99 (max (containerMembers exDbSub
            (mkP 10 "Fernet" 1 (some 2) 0 1).sectionId (some 2)).length 1)) ∧
      P2.sectionId = (mkP 10 "Fernet" 1 (some 2) 0 1).sectionId ∧
      P2.subSectionId = some 2) :=
  ⟨by decide,
    c5_subsection_reorder_clamped_top_order_raw.1 exDbSub 10 2 99
      (mkP 10 "Fernet" 1 (some 2) 0 1) ⟨1, "Tragos", true, [⟨2, "Vodka"⟩]⟩
      (by decide) (by decide) (by decide) (by decide) (by decide) (by decide)
      (by decide) (by decide)⟩

/-- Counterexample for C5 as stated: a reorder through the top-level
`order` field with target `5` against a one-member container writes `5`
verbatim, while the claimed clamp `max 1 (min 5 (max 1 1))` is `1`. -/
theorem c5_raw_order_counterexample :
    ((findIn (updateProduct { id := some 10, order := some 5 } exDbOne).db.products 10).map
        (·.order) = some 5) ∧
    max 1 (min 5 (max (containerMembers exDbOne 1 none).length 1)) = 1 ∧
    (5 : Nat) ≠ 1 := by decide

/-- C6: a `moveToContainer` request whose explicit destination equals the
product's current container (section `1`, subsection `2`) is **not** a
no-op: the code appends the product to the end of its own container.  On
`exDbPair` (members at positions `1` and `2`) the moved product ends at
position `3`, the other member stays at `2`, and the container is no longer
dense. -/
theorem c6_same_container_move_appends :
    ((findIn (updateProduct { id := some 10, sectionId := some 1, subSectionId := some 2 } exDbPair).db.products 10).map (·.subSectionOrder) = some 3) ∧
    ((findIn (updateProduct { id := some 10, sectionId := some 1, subSectionId := some 2 } exDbPair).db.products 11).map (·.subSectionOrder) = some 2) ∧
    ¬ Dense (updateProduct { id := some 10, sectionId := some 1, subSectionId := some 2 } exDbPair).db 1 (some 2) ∧
    ((findIn exDbPair.products 10).map (·.subSectionOrder) = some 1 ∧
      Dense exDbPair 1 (some 2)) := by decide

/-- Counterexample for C7 as stated: a combined request (new container and
explicit `subSectionOrder 1`) moving a product into subsection `5` of
section `2` (current members at positions `1, 2`) inserts it at the clamped
position `1` and shifts the others to `2, 3` — it does not append at
position `3` and the position argument is not ignored. -/
theorem c7_combined_request_inserts_counterexample :
    ((findIn (updateProduct { id := some 10, sectionId := some 2, subSectionId := some 5, subSectionOrder := some 1 } exDbMove).db.products 10).map
        (fun q => (q.sectionId, q.subSectionId, q.subSectionOrder)) = some (2, some 5, 1)) ∧
    ((findIn (updateProduct { id := some 10, sectionId := some 2, subSectionId := some 5, subSectionOrder := some 1 } exDbMove).db.products 11).map
        (·.subSectionOrder) = some 2) ∧
    ((findIn (updateProduct { id := some 10, sectionId := some 2, subSectionId := some 5, subSectionOrder := some 1 } exDbMove).db.products 12).map
        (·.subSectionOrder) = some 3) ∧
    maxSubOrder exDbMove 2 5 + 1 = 3 ∧ (1 : Nat) ≠ 3 := by decide

/-- C2: the reorder `subSectionOrder 3` of the product at position `1` in
the three-member subsection of `exDbSub` issues its row updates through the
plain client in the order: shift `11` to `1`, shift `12` to `2`, place `10`
at `3`, final field update.  Applying only the first write — the state the
store shows if the call fails right after it — leaves positions
`10 ↦ 1, 11 ↦ 1, 12 ↦ 3`: a duplicated position, different from the initial
state, so the incomplete shift is observable.  (Contrast: `deleteProduct`
wraps its writes in `prisma.$transaction`.) -/
theorem c2_update_shifts_not_atomic :
    (updateProduct { id := some 10, subSectionOrder := some 3 } exDbSub).writes
      = [.update (.byId 11) { subSectionOrder := some 1 },
         .update (.byId 12) { subSectionOrder := some 2 },
         .update (.byId 10) { sectionId := some 1, subSectionId := some (some 2), subSectionOrder := some 3, order := some 0 },
         .update (.byId 10) {}] ∧
    ((applyWrites ((updateProduct { id := some 10, subSectionOrder := some 3 }
        exDbSub).writes.take 1) exDbSub.products).map
        (fun q => (q.id, q.subSectionOrder)) = [(10, 1), (11, 1), (12, 3)]) ∧
    applyWrites ((updateProduct { id := some 10, subSectionOrder := some 3 }
        exDbSub).writes.take 1) exDbSub.products ≠ exDbSub.products ∧
    ¬ ({ exDbSub with products := (applyWrites ((updateProduct { id := some 10, subSectionOrder := some 3 } exDbSub).writes.take 1) exDbSub.products) } :
        Db).products.Pairwise (fun a b => a.subSectionOrder ≠ b.subSectionOrder) ∧
    ((updateProduct { id := some 10, subSectionOrder := some 3 } exDbSub).db.products.map
        (fun q => (q.id, q.subSectionOrder)) = [(10, 3), (11, 1), (12, 2)]) := by decide

theorem containerOf_cons (x : Product) (l : List Product) (sid : Nat) (sub : Option Nat) :
    containerOf (x :: l) sid sub
      = if x.sectionId == sid && x.subSectionId == sub then x :: containerOf l sid sub
        else containerOf l sid sub := by
  unfold containerOf
  rw [List.filter_cons]

/-- A row update whose `data` clears `subSectionId` removes the matched row
from every subsection container and touches no other row: the container's
remaining rows are those of the old container minus the matched id. -/
theorem containerOf_write_out (i : Nat) (d : UpdateData) (sid t : Nat)
    (hd : d.subSectionId = some none) :
    ∀ ps : List Product,
      containerOf (applyWrite (.update (.byId i) d) ps) sid (some t)
        = containerOf (ps.filter fun p => p.id ≠ i) sid (some t)
  | [] => rfl
  | p :: ps => by
    have hmap : applyWrite (.update (.byId i) d) (p :: ps)
        = (if pMatch (.byId i) p then applyData d p else p)
          :: applyWrite (.update (.byId i) d) ps := rfl
    rw [hmap]
    by_cases hq : p.id = i
    · rw [if_pos (show pMatch (.byId i) p = true by simp [pMatch, hq])]
      have hsub : (applyData d p).subSectionId = none := by
        show d.subSectionId.getD p.subSectionId = none
        rw [hd]
        rfl
      rw [containerOf_cons, if_neg (by rw [hsub]; simp)]
      rw [show ((p :: ps).filter fun q => q.id ≠ i) = ps.filter (fun q => q.id ≠ i) from
        List.filter_cons_of_neg (by simp [hq])]
      exact containerOf_write_out i d sid t hd ps
    · rw [if_neg (show ¬ pMatch (.byId i) p = true by simp [pMatch, hq])]
      rw [containerOf_cons]
      rw [show ((p :: ps).filter fun q => q.id ≠ i) = p :: ps.filter (fun q => q.id ≠ i) from
        List.filter_cons_of_pos (by simp [hq])]
      rw [containerOf_cons]
      rw [containerOf_write_out i d sid t hd ps]

/-- Tail of `updateCore` for a move whose destination is a top-level
section: no reorder ran, the final update rehomes the row with
`subSectionId` cleared and `order` set to the destination append position,
then the previous subsection is compacted when the row left one. -/
theorem updateCore_moveTopDest (a : UpdateArgs) (db : Db) (wh : PWhere) (P0 : Product)
    (S : Section) (tsub : Option Nat)
    (hso : a.subSectionOrder = none)
    (hrow : findByWhere db.products wh = some P0)
    (hSsub : S.subSection = false)
    (hTs : tNat a.sectionId = true) :
    updateCore a db wh P0 S tsub
      = (let data1 : UpdateData :=
           { name := a.name, description := a.description, active := a.active, price := a.price,
             sectionId := some S.id, subSectionId := some none, subSectionOrder := some 0,
             order := some (maxTopOrder db S.id + 1) }
         let r2 := emit wh data1 ⟨db, []⟩
         let r3 :=
           if tNat P0.subSectionId ∧ (P0.subSectionId ≠ tsub ∨ P0.sectionId ≠ S.id) then
             compactSub P0.sectionId (P0.subSectionId.getD 0) r2
           else r2
         { outcome := .ok (applyData data1 P0), db := r3.db, writes := r3.writes }) := by
  have hreo : reorderPhase a db wh P0 S tsub = (⟨db, []⟩, P0) :=
    reorderPhase_none a db wh P0 S tsub hso
  have hrow2 : findByWhere (⟨db, []⟩ : Run).db.products wh = some P0 := hrow
  rw [updateCore_eq a db wh P0 S tsub ⟨db, []⟩ P0 P0 hreo hrow2]
  dsimp only []
  rw [if_pos (Or.inr (Or.inr (Or.inl hTs)))]
  rw [if_neg (by simp [hSsub]), if_neg (by simp [hSsub])]

/-- C1 (amended): after a committed **delete**, the affected container's
positions are exactly `{1..n}` again; when `moveToContainer` relocates a
product out of a **subsection** source, the source subsection is compacted
and dense with one member fewer.  But when the source container is a
section's **top-level** container, no recompaction runs: every row other
than the moved one is left exactly as it was, so a gap opened by the
departure persists. -/
theorem c1_density_after_mutation_amended :
    (∀ (db : Db) (pid : Nat) (P : Product),
      (db.products.map (·.id)).Nodup → pid ≠ 0 →
      findIn db.products pid = some P → P.subSectionId ≠ some 0 →
      Dense (deleteProduct (some pid) none db).2 P.sectionId P.subSectionId) ∧
    (∀ (a : UpdateArgs) (db : Db) (pid sid2 t : Nat) (P : Product) (S2 : Section),
      a.id = some pid → a.sectionId = some sid2 →
      a.sectionName = none → a.subSectionId = none → a.subSectionName = none →
      a.subSectionOrder = none →
      (db.products.map (·.id)).Nodup →
      pid ≠ 0 → sid2 ≠ 0 →
      findIn db.products pid = some P →
      P.subSectionId = some t → t ≠ 0 → P.sectionId ≠ sid2 →
      findSectionById db sid2 = some S2 → S2.subSection = false →
      Dense (updateProduct a db).db P.sectionId (some t) ∧
      (containerMembers (updateProduct a db).db P.sectionId (some t)).length
        = (containerMembers db P.sectionId (some t)).length - 1) ∧
    (∀ (a : UpdateArgs) (db : Db) (pid sid2 : Nat) (P : Product) (S2 : Section),
      a.id = some pid → a.sectionId = some sid2 →
      a.sectionName = none → a.subSectionId = none → a.subSectionName = none →
      a.subSectionOrder = none →
      (db.products.map (·.id)).Nodup →
      pid ≠ 0 → sid2 ≠ 0 →
      findIn db.products pid = some P →
      P.subSectionId = none →
      findSectionById db sid2 = some S2 → S2.subSection = false →
      ∀ q ∈ db.products, q.id ≠ pid →
        findIn (updateProduct a db).db.products q.id = some q) := by
  refine ⟨?_, ?_, ?_⟩
  · intro db pid P hnodup hpid hfind hsub0
    rw [deleteProduct_byId db pid P hpid hfind]
    exact (deleteCore_correct db P hnodup (List.mem_of_find?_eq_some hfind) hsub0).2.1
  · intro a db pid sid2 t P S2 hid hsid hsecNm hsubId hsubNm hso hnodup hpid hs2
      hfind hPsub ht hne hsec2 hS2sub
    have hPid : P.id = pid := findIn_id hfind
    have hS2id : S2.id = sid2 := findSectionById_id hsec2
    have hdisp := updateProduct_withSection a db pid sid2 P S2 hid hpid hfind hsid hs2
      hsecNm hsubNm hsec2 (Or.inl hS2sub)
    rw [hsubId, hPsub] at hdisp
    rw [show ((none : Option Nat).or (some t)) = some t from rfl] at hdisp
    have hTs : tNat a.sectionId = true := by rw [hsid]; simp [tNat, hs2]
    have hrow : findByWhere db.products (.byId pid) = some P := by
      rw [findByWhere_byId]; exact hfind
    have hcore := updateCore_moveTopDest a db (.byId pid) P S2 (some t) hso hrow hS2sub hTs
    rw [hdisp, hcore]
    dsimp only []
    rw [if_pos (show (tNat P.subSectionId = true)
        ∧ (P.subSectionId ≠ some t ∨ P.sectionId ≠ S2.id) from
      ⟨by rw [hPsub]; simp [tNat, ht], Or.inr (by rw [hS2id]; exact hne)⟩)]
    rw [hPsub, Option.getD_some]
    have hprod := compactLoop_products
      (sortBySubOrder (containerMembers (emit (.byId pid)
        { name := a.name, description := a.description, active := a.active, price := a.price,
          sectionId := some S2.id, subSectionId := some none, subSectionOrder := some 0,
          order := some (maxTopOrder db S2.id + 1) } ⟨db, []⟩).db P.sectionId (some t)))
      (emit (.byId pid)
        { name := a.name, description := a.description, active := a.active, price := a.price,
          sectionId := some S2.id, subSectionId := some none, subSectionOrder := some 0,
          order := some (maxTopOrder db S2.id + 1) } ⟨db, []⟩)
    have hr2p : (emit (.byId pid)
        { name := a.name, description := a.description, active := a.active, price := a.price,
          sectionId := some S2.id, subSectionId := some none, subSectionOrder := some 0,
          order := some (maxTopOrder db S2.id + 1) } ⟨db, []⟩).db.products
        = applyWrite (.update (.byId pid)
            { name := a.name, description := a.description, active := a.active, price := a.price,
              sectionId := some S2.id, subSectionId := some none, subSectionOrder := some 0,
              order := some (maxTopOrder db S2.id + 1) }) db.products := rfl
    have hnodup2 : ((emit (.byId pid)
        { name := a.name, description := a.description, active := a.active, price := a.price,
          sectionId := some S2.id, subSectionId := some none, subSectionOrder := some 0,
          order := some (maxTopOrder db S2.id + 1) } ⟨db, []⟩).db.products.map (·.id)).Nodup := by
      rw [hr2p]
      exact nodup_ids_map _
        (fun p => by by_cases h : pMatch (.byId pid) p <;> simp [h, applyData_id])
        db.products hnodup
    have hcore2 := renumber_container_perm setSubPos (posKey (some t))
      (fun _ _ => rfl) (fun _ _ => rfl) (fun _ _ => rfl) (fun _ _ => rfl)
      ((emit (.byId pid)
        { name := a.name, description := a.description, active := a.active, price := a.price,
          sectionId := some S2.id, subSectionId := some none, subSectionOrder := some 0,
          order := some (maxTopOrder db S2.id + 1) } ⟨db, []⟩).db.products)
      P.sectionId (some t)
      (sortBySubOrder (containerMembers (emit (.byId pid)
        { name := a.name, description := a.description, active := a.active, price := a.price,
          sectionId := some S2.id, subSectionId := some none, subSectionOrder := some 0,
          order := some (maxTopOrder db S2.id + 1) } ⟨db, []⟩).db P.sectionId (some t)))
      (sortBySubOrder_perm _) hnodup2
    constructor
    · show ((containerOf (compactSub P.sectionId t (emit (.byId pid)
          { name := a.name, description := a.description, active := a.active, price := a.price,
            sectionId := some S2.id, subSectionId := some none, subSectionOrder := some 0,
            order := some (maxTopOrder db S2.id + 1) } ⟨db, []⟩)).db.products
          P.sectionId (some t)).map (posKey (some t))).Perm
        (List.range' 1 (containerOf (compactSub P.sectionId t (emit (.byId pid)
          { name := a.name, description := a.description, active := a.active, price := a.price,
            sectionId := some S2.id, subSectionId := some none, subSectionOrder := some 0,
            order := some (maxTopOrder db S2.id + 1) } ⟨db, []⟩)).db.products
          P.sectionId (some t)).length)
      rw [show (compactSub P.sectionId t (emit (.byId pid)
          { name := a.name, description := a.description, active := a.active, price := a.price,
            sectionId := some S2.id, subSectionId := some none, subSectionOrder := some 0,
            order := some (maxTopOrder db S2.id + 1) } ⟨db, []⟩)).db.products
        = (compactLoop (sortBySubOrder (containerMembers (emit (.byId pid)
            { name := a.name, description := a.description, active := a.active, price := a.price,
              sectionId := some S2.id, subSectionId := some none, subSectionOrder := some 0,
              order := some (maxTopOrder db S2.id + 1) } ⟨db, []⟩).db P.sectionId (some t)))
            (emit (.byId pid)
              { name := a.name, description := a.description, active := a.active,
                price := a.price, sectionId := some S2.id, subSectionId := some none,
                subSectionOrder := some 0,
                order := some (maxTopOrder db S2.id + 1) } ⟨db, []⟩)).db.products from rfl]
      rw [hprod]
      rw [hcore2.2]
      exact hcore2.1
    · show (containerOf (compactSub P.sectionId t (emit (.byId pid)
          { name := a.name, description := a.description, active := a.active, price := a.price,
            sectionId := some S2.id, subSectionId := some none, subSectionOrder := some 0,
            order := some (maxTopOrder db S2.id + 1) } ⟨db, []⟩)).db.products
          P.sectionId (some t)).length
        = (containerOf db.products P.sectionId (some t)).length - 1
      rw [show (compactSub P.sectionId t (emit (.byId pid)
          { name := a.name, description := a.description, active := a.active, price := a.price,
            sectionId := some S2.id, subSectionId := some none, subSectionOrder := some 0,
            order := some (maxTopOrder db S2.id + 1) } ⟨db, []⟩)).db.products
        = (compactLoop (sortBySubOrder (containerMembers (emit (.byId pid)
            { name := a.name, description := a.description, active := a.active, price := a.price,
              sectionId := some S2.id, subSectionId := some none, subSectionOrder := some 0,
              order := some (maxTopOrder db S2.id + 1) } ⟨db, []⟩).db P.sectionId (some t)))
            (emit (.byId pid)
              { name := a.name, description := a.description, active := a.active,
                price := a.price, sectionId := some S2.id, subSectionId := some none,
                subSectionOrder := some 0,
                order := some (maxTopOrder db S2.id + 1) } ⟨db, []⟩)).db.products from rfl]
      rw [hprod, hcore2.2, sortBySubOrder_length]
      show (containerOf (emit (.byId pid)
          { name := a.name, description := a.description, active := a.active, price := a.price,
            sectionId := some S2.id, subSectionId := some none, subSectionOrder := some 0,
            order := some (maxTopOrder db S2.id + 1) } ⟨db, []⟩).db.products
          P.sectionId (some t)).length
        = (containerOf db.products P.sectionId (some t)).length - 1
      rw [hr2p, containerOf_write_out pid _ P.sectionId t rfl db.products, containerOf_filter]
      have hPinC : P ∈ containerOf db.products P.sectionId (some t) :=
        mem_containerOf.mpr ⟨List.mem_of_find?_eq_some hfind, rfl, hPsub⟩
      rw [← hPid]
      exact length_filter_ne_id _ (container_ids_nodup hnodup _ _) hPinC
  · intro a db pid sid2 P S2 hid hsid hsecNm hsubId hsubNm hso hnodup hpid hs2
      hfind hPsub hsec2 hS2sub
    have hdisp := updateProduct_withSection a db pid sid2 P S2 hid hpid hfind hsid hs2
      hsecNm hsubNm hsec2 (Or.inl hS2sub)
    rw [hsubId, hPsub] at hdisp
    rw [show ((none : Option Nat).or none) = none from rfl] at hdisp
    have hTs : tNat a.sectionId = true := by rw [hsid]; simp [tNat, hs2]
    have hrow : findByWhere db.products (.byId pid) = some P := by
      rw [findByWhere_byId]; exact hfind
    have hcore := updateCore_moveTopDest a db (.byId pid) P S2 none hso hrow hS2sub hTs
    rw [hdisp, hcore]
    dsimp only []
    rw [if_neg (by rw [hPsub]; simp [tNat])]
    intro q hq hqne
    show findIn (emit (.byId pid)
        { name := a.name, description := a.description, active := a.active, price := a.price,
          sectionId := some S2.id, subSectionId := some none, subSectionOrder := some 0,
          order := some (maxTopOrder db S2.id + 1) } ⟨db, []⟩).db.products q.id = some q
    rw [emit_products, findIn_applyWrite]
    rw [show (⟨db, []⟩ : Run).db.products = db.products from rfl]
    rw [findIn_of_mem db.products hnodup hq]
    rw [Option.map_some', if_neg (by simp [pMatch, hqne])]

/-- Witness for C1 (amended), move part: pulling the first member out of
the three-member subsection `2` of `exDbSub` into the top-level section `3`
leaves the source dense with two members. -/
theorem c1_density_after_mutation_amended_witness :
    ((exDbSub.products.map (·.id)).Nodup ∧ (10 : Nat) ≠ 0 ∧ (3 : Nat) ≠ 0 ∧
      findIn exDbSub.products 10 = some (mkP 10 "Fernet" 1 (some 2) 0 1) ∧
      (1 : Nat) ≠ 3 ∧ findSectionById exDbSub 3 = some ⟨3, "Pizzas", false, []⟩) ∧
    (Dense (updateProduct { id := some 10, sectionId := some 3 } exDbSub).db 1 (some 2) ∧
      (containerMembers (updateProduct { id := some 10, sectionId := some 3 } exDbSub).db
          1 (some 2)).length
        = (containerMembers exDbSub 1 (some 2)).length - 1) :=
  ⟨by decide,
    c1_density_after_mutation_amended.2.1 { id := some 10, sectionId := some 3 } exDbSub
      10 3 2 (mkP 10 "Fernet" 1 (some 2) 0 1) ⟨3, "Pizzas", false, []⟩
      rfl rfl rfl rfl rfl rfl (by decide) (by decide) (by decide) (by decide)
      (by decide) (by decide) (by decide) (by decide) (by decide)⟩

/-- Counterexample for C1 as stated: moving a product out of a top-level
container does not recompact the source.  Moving product `10` (position
`1`) from section `1` to section `2` leaves section `1` with one member at
position `2` — not `{1}` — so the source container is not dense. -/
theorem c1_top_level_source_not_compacted_counterexample :
    ((updateProduct { id := some 10, sectionId := some 2 } exDbTop).db.products.map
        (fun q => (q.id, q.sectionId, q.order)) = [(10, 2, 1), (11, 1, 2)]) ∧
    ¬ Dense (updateProduct { id := some 10, sectionId := some 2 } exDbTop).db 1 none ∧
    Dense exDbTop 1 none := by decide

theorem applyWrite_nodup (w : PWhere) (d : UpdateData) (ps : List Product)
    (h : (ps.map (·.id)).Nodup) : ((applyWrite (.update w d) ps).map (·.id)).Nodup :=
  nodup_ids_map _ (fun p => by by_cases h2 : pMatch w p <;> simp [h2, applyData_id]) ps h

theorem shiftLoop_nodup (cond : Product → Prop) [DecidablePred cond]
    (upd : Product → UpdateData) :
    ∀ (items : List Product) (r : Run),
      (r.db.products.map (·.id)).Nodup →
      ((shiftLoop cond upd items r).db.products.map (·.id)).Nodup
  | [], _, h => h
  | it :: rest, r, h => by
    rw [shiftLoop_cons]
    apply shiftLoop_nodup cond upd rest
    by_cases hc : cond it
    · rw [if_pos hc]
      rw [show (emit (.byId it.id) (upd it) r).db.products
        = applyWrite (.update (.byId it.id) (upd it)) r.db.products from rfl]
      exact applyWrite_nodup _ _ _ h
    · rw [if_neg hc]
      exact h

/-- C7 (amended): a combined request (new container **and** explicit
position) is treated as a Move, but the position argument is only ignored
for a **top-level** destination, where the product is appended at
`max + 1`.  For a **subsection** destination an explicit `subSectionOrder`
is honoured: the product is inserted at the clamped target position in the
destination subsection, not appended. -/
theorem c7_move_append_top_and_insert_sub :
    (∀ (a : UpdateArgs) (db : Db) (pid sid2 v : Nat) (P : Product) (S2 : Section),
      a.id = some pid → a.sectionId = some sid2 →
      a.sectionName = none → a.subSectionId = none → a.subSectionName = none →
      a.subSectionOrder = none → a.order = some v →
      (db.products.map (·.id)).Nodup →
      pid ≠ 0 → sid2 ≠ 0 →
      findIn db.products pid = some P →
      findSectionById db sid2 = some S2 → S2.subSection = false →
      ∃ P2, (updateProduct a db).outcome = .ok P2 ∧
        findIn (updateProduct a db).db.products pid = some P2 ∧
        P2.sectionId = sid2 ∧ P2.subSectionId = none ∧
        P2.order = maxTopOrder db sid2 + 1 ∧ P2.subSectionOrder = 0) ∧
    (∀ (a : UpdateArgs) (db : Db) (pid sid2 u p : Nat) (P : Product) (S2 : Section),
      a.id = some pid → a.sectionId = some sid2 →
      a.sectionName = none → a.subSectionId = some u → a.subSectionName = none →
      a.subSectionOrder = some p →
      (db.products.map (·.id)).Nodup →
      pid ≠ 0 → sid2 ≠ 0 → u ≠ 0 →
      findIn db.products pid = some P →
      P.sectionId ≠ sid2 →
      findSectionById db sid2 = some S2 → S2.subSection = true →
      ∃ P2, (updateProduct a db).outcome = .ok P2 ∧
        findIn (updateProduct a db).db.products pid = some P2 ∧
        P2.sectionId = sid2 ∧ P2.subSectionId = some u ∧
        P2.subSectionOrder
          = max 1 (min p (max (containerMembers db sid2 (some u)).length 1))) := by
  constructor
  · intro a db pid sid2 v P S2 hid hsid hsecNm hsubId hsubNm hso hord hnodup hpid hs2
      hfind hsec2 hS2sub
    have hPid : P.id = pid := findIn_id hfind
    have hS2id : S2.id = sid2 := findSectionById_id hsec2
    have hdisp := updateProduct_withSection a db pid sid2 P S2 hid hpid hfind hsid hs2
      hsecNm hsubNm hsec2 (Or.inl hS2sub)
    rw [hsubId] at hdisp
    rw [show ((none : Option Nat).or P.subSectionId) = P.subSectionId from rfl] at hdisp
    have hTs : tNat a.sectionId = true := by rw [hsid]; simp [tNat, hs2]
    have hrow : findByWhere db.products (.byId pid) = some P := by
      rw [findByWhere_byId]; exact hfind
    have hcore := updateCore_moveTopDest a db (.byId pid) P S2 P.subSectionId hso hrow
      hS2sub hTs
    rw [hdisp, hcore]
    dsimp only []
    have hpm : pMatch (.byId pid) P = true := by simp [pMatch, hPid]
    have hfr2 : findIn (emit (.byId pid)
        { name := a.name, description := a.description, active := a.active, price := a.price,
          sectionId := some S2.id, subSectionId := some none, subSectionOrder := some 0,
          order := some (maxTopOrder db S2.id + 1) } ⟨db, []⟩).db.products pid
        = some (applyData
            { name := a.name, description := a.description, active := a.active,
              price := a.price, sectionId := some S2.id, subSectionId := some none,
              subSectionOrder := some 0, order := some (maxTopOrder db S2.id + 1) } P) := by
      rw [emit_products, findIn_applyWrite,
        show (⟨db, []⟩ : Run).db.products = db.products from rfl, hfind,
        Option.map_some', if_pos hpm]
    refine ⟨applyData
        { name := a.name, description := a.description, active := a.active,
          price := a.price, sectionId := some S2.id, subSectionId := some none,
          subSectionOrder := some 0, order := some (maxTopOrder db S2.id + 1) } P,
      rfl, ?_, hS2id, rfl, ?_, rfl⟩
    · rcases hP : P.subSectionId with _ | s
      · rw [if_neg (by simp [tNat])]
        exact hfr2
      · by_cases hs0 : s = 0
        · rw [if_neg (by simp [tNat, hs0])]
          exact hfr2
        · by_cases hPsEq : P.sectionId = S2.id
          · rw [if_neg (fun h => h.2.elim (fun h1 => h1 rfl) (fun h2 => h2 hPsEq))]
            exact hfr2
          · rw [if_pos (show (tNat (some s) = true)
                ∧ ((some s : Option Nat) ≠ some s ∨ P.sectionId ≠ S2.id) from
              ⟨by simp [tNat, hs0], Or.inr hPsEq⟩), Option.getD_some]
            have hnodup2 : ((emit (.byId pid)
                { name := a.name, description := a.description, active := a.active,
                  price := a.price, sectionId := some S2.id, subSectionId := some none,
                  subSectionOrder := some 0,
                  order := some (maxTopOrder db S2.id + 1) } ⟨db, []⟩).db.products.map
                (·.id)).Nodup := by
              rw [emit_products]
              exact applyWrite_nodup _ _ _ hnodup
            show findIn (compactLoop (sortBySubOrder (containerMembers (emit (.byId pid)
                { name := a.name, description := a.description, active := a.active,
                  price := a.price, sectionId := some S2.id, subSectionId := some none,
                  subSectionOrder := some 0,
                  order := some (maxTopOrder db S2.id + 1) } ⟨db, []⟩).db P.sectionId
                (some s)))
                (emit (.byId pid)
                  { name := a.name, description := a.description, active := a.active,
                    price := a.price, sectionId := some S2.id, subSectionId := some none,
                    subSectionOrder := some 0,
                    order := some (maxTopOrder db S2.id + 1) } ⟨db, []⟩)).db.products pid
              = some (applyData
                  { name := a.name, description := a.description, active := a.active,
                    price := a.price, sectionId := some S2.id, subSectionId := some none,
                    subSectionOrder := some 0, order := some (maxTopOrder db S2.id + 1) } P)
            rw [compactLoop_products]
            rw [renumberF_findIn setSubPos (fun _ _ => rfl) pid _ 1 _ ?hnotin]
            · exact hfr2
            case hnotin =>
              intro hmem
              obtain ⟨q, hq, hqid⟩ := List.mem_map.mp hmem
              have hq2 := (sortBySubOrder_perm _).mem_iff.mp hq
              obtain ⟨hqin, hqsec, hqsub⟩ := mem_containerOf.mp hq2
              have hfq : findIn (emit (.byId pid)
                  { name := a.name, description := a.description, active := a.active,
                    price := a.price, sectionId := some S2.id, subSectionId := some none,
                    subSectionOrder := some 0,
                    order := some (maxTopOrder db S2.id + 1) } ⟨db, []⟩).db.products q.id
                  = some q := findIn_of_mem _ hnodup2 hqin
              rw [hqid] at hfq
              have hqe : q = applyData
                  { name := a.name, description := a.description, active := a.active,
                    price := a.price, sectionId := some S2.id, subSectionId := some none,
                    subSectionOrder := some 0, order := some (maxTopOrder db S2.id + 1) } P :=
                Option.some.inj (hfq.symm.trans hfr2)
              rw [hqe] at hqsub
              exact Option.noConfusion hqsub
    · show maxTopOrder db S2.id + 1 = maxTopOrder db sid2 + 1
      rw [hS2id]
  · intro a db pid sid2 u p P S2 hid hsid hsecNm hsubId hsubNm hso hnodup hpid hs2 hu
      hfind hne hsec2 hS2sub
    have hPid : P.id = pid := findIn_id hfind
    have hS2id : S2.id = sid2 := findSectionById_id hsec2
    have hne2 : P.sectionId ≠ S2.id := by rw [hS2id]; exact hne
    have hdisp := updateProduct_withSection a db pid sid2 P S2 hid hpid hfind hsid hs2
      hsecNm hsubNm hsec2 (Or.inr (by rw [hsubId]; simp [tNat, hu]))
    rw [hsubId] at hdisp
    rw [show ((some u : Option Nat).or P.subSectionId) = some u from rfl] at hdisp
    have hTs : tNat a.sectionId = true := by rw [hsid]; simp [tNat, hs2]
    have hreo : reorderPhase a db (.byId pid) P S2 (some u)
        = (emit (.byId pid)
            { sectionId := some S2.id, subSectionId := some (some u),
              subSectionOrder := some (max 1 (min p (max (sortBySubOrder
                (containerMembers db S2.id (some u))).length 1))), order := some 0 }
            (shiftLoop
              (fun it => it.subSectionOrder ≠ 0 ∧
                max 1 (min p (max (sortBySubOrder
                  (containerMembers db S2.id (some u))).length 1)) ≤ it.subSectionOrder)
              (fun it => { subSectionOrder := some (it.subSectionOrder + 1) })
              (sortBySubOrder (containerMembers db S2.id (some u))) ⟨db, []⟩),
          { P with
            sectionId := S2.id, subSectionId := some u
            subSectionOrder := max 1 (min p (max (sortBySubOrder
              (containerMembers db S2.id (some u))).length 1)) }) := by
      rw [reorderPhase_subsection a db (.byId pid) P S2 u p hso hS2sub hu]
      dsimp only []
      rw [if_neg (fun h => hne2 h.1.1), if_neg (fun h => hne2 h.1.1)]
    have hexcl : ∀ it ∈ sortBySubOrder (containerMembers db S2.id (some u)),
        (it.subSectionOrder ≠ 0 ∧
          max 1 (min p (max (sortBySubOrder
            (containerMembers db S2.id (some u))).length 1)) ≤ it.subSectionOrder) →
        it.id ≠ pid := by
      intro it hit _ hidp
      have hit2 := (sortBySubOrder_perm _).mem_iff.mp hit
      obtain ⟨hin, hsec3, _⟩ := mem_containerOf.mp hit2
      have hfi : findIn db.products it.id = some it := findIn_of_mem _ hnodup hin
      rw [hidp] at hfi
      have hie : it = P := Option.some.inj (hfi.symm.trans hfind)
      rw [hie] at hsec3
      exact hne2 hsec3
    have hLfind : findIn (shiftLoop
        (fun it => it.subSectionOrder ≠ 0 ∧
          max 1 (min p (max (sortBySubOrder
            (containerMembers db S2.id (some u))).length 1)) ≤ it.subSectionOrder)
        (fun it => { subSectionOrder := some (it.subSectionOrder + 1) })
        (sortBySubOrder (containerMembers db S2.id (some u))) ⟨db, []⟩).db.products pid
        = some P := by
      rw [shiftLoop_findIn _ _ pid _ _ hexcl]
      exact hfind
    have hpm : pMatch (.byId pid) P = true := by simp [pMatch, hPid]
    have hfr1 : findIn (emit (.byId pid)
        { sectionId := some S2.id, subSectionId := some (some u),
          subSectionOrder := some (max 1 (min p (max (sortBySubOrder
            (containerMembers db S2.id (some u))).length 1))), order := some 0 }
        (shiftLoop
          (fun it => it.subSectionOrder ≠ 0 ∧
            max 1 (min p (max (sortBySubOrder
              (containerMembers db S2.id (some u))).length 1)) ≤ it.subSectionOrder)
          (fun it => { subSectionOrder := some (it.subSectionOrder + 1) })
          (sortBySubOrder (containerMembers db S2.id (some u))) ⟨db, []⟩)).db.products pid
        = some (applyData
            { sectionId := some S2.id, subSectionId := some (some u),
              subSectionOrder := some (max 1 (min p (max (sortBySubOrder
                (containerMembers db S2.id (some u))).length 1))), order := some 0 } P) := by
      rw [emit_products, findIn_applyWrite, hLfind, Option.map_some', if_pos hpm]
    have hrow : findByWhere (emit (.byId pid)
        { sectionId := some S2.id, subSectionId := some (some u),
          subSectionOrder := some (max 1 (min p (max (sortBySubOrder
            (containerMembers db S2.id (some u))).length 1))), order := some 0 }
        (shiftLoop
          (fun it => it.subSectionOrder ≠ 0 ∧
            max 1 (min p (max (sortBySubOrder
              (containerMembers db S2.id (some u))).length 1)) ≤ it.subSectionOrder)
          (fun it => { subSectionOrder := some (it.subSectionOrder + 1) })
          (sortBySubOrder (containerMembers db S2.id (some u))) ⟨db, []⟩)).db.products
        (.byId pid)
        = some (applyData
            { sectionId := some S2.id, subSectionId := some (some u),
              subSectionOrder := some (max 1 (min p (max (sortBySubOrder
                (containerMembers db S2.id (some u))).length 1))), order := some 0 } P) := by
      rw [findByWhere_byId]
      exact hfr1
    have hfin := updateCore_eq a db (.byId pid) P S2 (some u) _ _ _ hreo hrow
    rw [hdisp, hfin]
    dsimp only []
    rw [if_pos (Or.inr (Or.inr (Or.inl hTs)))]
    rw [if_pos (show (S2.subSection = true) ∧ (tNat (some u) = true)
        ∧ (a.subSectionOrder.isSome = true) from
      ⟨hS2sub, by simp [tNat, hu], by rw [hso]; rfl⟩)]
    have hfr2 : findIn (emit (.byId pid)
        { name := a.name, description := a.description, active := a.active, price := a.price,
          sectionId := some S2.id, subSectionId := some (some u), order := some 0 }
        (emit (.byId pid)
          { sectionId := some S2.id, subSectionId := some (some u),
            subSectionOrder := some (max 1 (min p (max (sortBySubOrder
              (containerMembers db S2.id (some u))).length 1))), order := some 0 }
          (shiftLoop
            (fun it => it.subSectionOrder ≠ 0 ∧
              max 1 (min p (max (sortBySubOrder
                (containerMembers db S2.id (some u))).length 1)) ≤ it.subSectionOrder)
            (fun it => { subSectionOrder := some (it.subSectionOrder + 1) })
            (sortBySubOrder (containerMembers db S2.id (some u))) ⟨db, []⟩))).db.products pid
        = some (applyData
            { name := a.name, description := a.description, active := a.active,
              price := a.price, sectionId := some S2.id, subSectionId := some (some u),
              order := some 0 }
            (applyData
              { sectionId := some S2.id, subSectionId := some (some u),
                subSectionOrder := some (max 1 (min p (max (sortBySubOrder
                  (containerMembers db S2.id (some u))).length 1))), order := some 0 } P)) := by
      rw [emit_products, findIn_applyWrite, hfr1, Option.map_some',
        if_pos (by simp [pMatch, applyData_id, hPid])]
    refine ⟨applyData
        { name := a.name, description := a.description, active := a.active,
          price := a.price, sectionId := some S2.id, subSectionId := some (some u),
          order := some 0 }
        (applyData
          { sectionId := some S2.id, subSectionId := some (some u),
            subSectionOrder := some (max 1 (min p (max (sortBySubOrder
              (containerMembers db S2.id (some u))).length 1))), order := some 0 } P),
      rfl, ?_, hS2id, rfl, ?_⟩
    · rcases hP : P.subSectionId with _ | s
      · rw [if_neg (by simp [tNat])]
        exact hfr2
      · by_cases hs0 : s = 0
        · rw [if_neg (by simp [tNat, hs0])]
          exact hfr2
        · rw [if_pos (show (tNat (some s) = true)
              ∧ ((some s : Option Nat) ≠ some u ∨ P.sectionId ≠ S2.id) from
            ⟨by simp [tNat, hs0], Or.inr hne2⟩), Option.getD_some]
          have hnodup2 : ((emit (.byId pid)
              { name := a.name, description := a.description, active := a.active,
                price := a.price, sectionId := some S2.id, subSectionId := some (some u),
                order := some 0 }
              (emit (.byId pid)
                { sectionId := some S2.id, subSectionId := some (some u),
                  subSectionOrder := some (max 1 (min p (max (sortBySubOrder
                    (containerMembers db S2.id (some u))).length 1))), order := some 0 }
                (shiftLoop
                  (fun it => it.subSectionOrder ≠ 0 ∧
                    max 1 (min p (max (sortBySubOrder
                      (containerMembers db S2.id (some u))).length 1)) ≤ it.subSectionOrder)
                  (fun it => { subSectionOrder := some (it.subSectionOrder + 1) })
                  (sortBySubOrder (containerMembers db S2.id (some u)))
                  ⟨db, []⟩))).db.products.map (·.id)).Nodup := by
            rw [emit_products]
            apply applyWrite_nodup
            rw [emit_products]
            apply applyWrite_nodup
            exact shiftLoop_nodup _ _ _ _ hnodup
          rw [show (compactSub P.sectionId s (emit (.byId pid)
              { name := a.name, description := a.description, active := a.active,
                price := a.price, sectionId := some S2.id, subSectionId := some (some u),
                order := some 0 }
              (emit (.byId pid)
                { sectionId := some S2.id, subSectionId := some (some u),
                  subSectionOrder := some (max 1 (min p (max (sortBySubOrder
                    (containerMembers db S2.id (some u))).length 1))), order := some 0 }
                (shiftLoop
                  (fun it => it.subSectionOrder ≠ 0 ∧
                    max 1 (min p (max (sortBySubOrder
                      (containerMembers db S2.id (some u))).length 1)) ≤ it.subSectionOrder)
                  (fun it => { subSectionOrder := some (it.subSectionOrder + 1) })
                  (sortBySubOrder (containerMembers db S2.id (some u)))
                  ⟨db, []⟩)))).db.products
            = renumberF setSubPos ((sortBySubOrder (containerMembers (emit (.byId pid)
                { name := a.name, description := a.description, active := a.active,
                  price := a.price, sectionId := some S2.id, subSectionId := some (some u),
                  order := some 0 }
                (emit (.byId pid)
                  { sectionId := some S2.id, subSectionId := some (some u),
                    subSectionOrder := some (max 1 (min p (max (sortBySubOrder
                      (containerMembers db S2.id (some u))).length 1))), order := some 0 }
                  (shiftLoop
                    (fun it => it.subSectionOrder ≠ 0 ∧
                      max 1 (min p (max (sortBySubOrder
                        (containerMembers db S2.id (some u))).length 1))
                        ≤ it.subSectionOrder)
                    (fun it => { subSectionOrder := some (it.subSectionOrder + 1) })
                    (sortBySubOrder (containerMembers db S2.id (some u)))
                    ⟨db, []⟩))).db P.sectionId (some s))).map (·.id)) 1
                (emit (.byId pid)
                  { name := a.name, description := a.description, active := a.active,
                    price := a.price, sectionId := some S2.id,
                    subSectionId := some (some u), order := some 0 }
                  (emit (.byId pid)
                    { sectionId := some S2.id, subSectionId := some (some u),
                      subSectionOrder := some (max 1 (min p (max (sortBySubOrder
                        (containerMembers db S2.id (some u))).length 1))), order := some 0 }
                    (shiftLoop
                      (fun it => it.subSectionOrder ≠ 0 ∧
                        max 1 (min p (max (sortBySubOrder
                          (containerMembers db S2.id (some u))).length 1))
                          ≤ it.subSectionOrder)
                      (fun it => { subSectionOrder := some (it.subSectionOrder + 1) })
                      (sortBySubOrder (containerMembers db S2.id (some u)))
                      ⟨db, []⟩))).db.products
            from compactLoop_products _ _]
          rw [renumberF_findIn setSubPos (fun _ _ => rfl) pid _ 1 _ ?hnotin2]
          · exact hfr2
          case hnotin2 =>
            intro hmem
            obtain ⟨q, hq, hqid⟩ := List.mem_map.mp hmem
            have hq2 := (sortBySubOrder_perm _).mem_iff.mp hq
            obtain ⟨hqin, hqsec, hqsub⟩ := mem_containerOf.mp hq2
            have hfq := findIn_of_mem _ hnodup2 hqin
            rw [hqid] at hfq
            have hqe := Option.some.inj (hfq.symm.trans hfr2)
            rw [hqe] at hqsec
            exact hne2 hqsec.symm
    · show max 1 (min p (max (sortBySubOrder (containerMembers db S2.id (some u))).length 1))
        = max 1 (min p (max (containerMembers db sid2 (some u)).length 1))
      rw [sortBySubOrder_length, hS2id]

/-- Witness for C7 (amended), top-level part: moving product `11` out of
subsection `5` of section `2` into the top-level section `1` of `exDbMove`
with an explicit `order := 7` appends it at position `2` — the argument is
ignored. -/
theorem c7_move_append_top_witness :
    ((exDbMove.products.map (·.id)).Nodup ∧ (11 : Nat) ≠ 0 ∧ (1 : Nat) ≠ 0 ∧
      findIn exDbMove.products 11 = some (mkP 11 "Smirnoff" 2 (some 5) 0 1) ∧
      findSectionById exDbMove 1 = some ⟨1, "Pizzas", false, []⟩) ∧
    (∃ P2, (updateProduct { id := some 11, sectionId := some 1, order := some 7 }
        exDbMove).outcome = .ok P2 ∧
      findIn (updateProduct { id := some 11, sectionId := some 1, order := some 7 }
        exDbMove).db.products 11 = some P2 ∧
      P2.sectionId = 1 ∧ P2.subSectionId = none ∧
      P2.order = maxTopOrder exDbMove 1 + 1 ∧ P2.subSectionOrder = 0) :=
  ⟨by decide,
    c7_move_append_top_and_insert_sub.1
      { id := some 11, sectionId := some 1, order := some 7 } exDbMove
      11 1 7 (mkP 11 "Smirnoff" 2 (some 5) 0 1) ⟨1, "Pizzas", false, []⟩
      rfl rfl rfl rfl rfl rfl rfl (by decide) (by decide) (by decide) (by decide)
      (by decide) (by decide)⟩

/-- `createProduct` on a top-level target section: the row is appended at
`maxTopOrder + 1` in the `order` field, with no subsection reference,
whatever `subSectionId` or `subSectionName` was supplied. -/
theorem createProduct_eq_top (a : CreateArgs) (db : Db) (pa : PriceArg) (v : Rat)
    (sid : Nat) (sec : Section)
    (hnm : tStr a.name = true)
    (hpa : a.price = some pa) (hv : parsePrice pa = some v) (hvpos : 0 < v)
    (hsid : a.sectionId = some sid) (hsidT : tNat a.sectionId = true)
    (hsec : findSectionById db sid = some sec) (hS : sec.subSection = false) :
    createProduct a db
      = (.ok (freshProduct db (a.name.getD "") v sec.id none (maxTopOrder db sec.id + 1) 0),
         { db with products := db.products
             ++ [freshProduct db (a.name.getD "") v sec.id none
                   (maxTopOrder db sec.id + 1) 0] }) := by
  unfold createProduct
  rw [if_neg (by simp [hnm]), hpa]
  dsimp only []
  rw [hv]
  dsimp only []
  rw [if_neg (by simp [not_le.mpr hvpos]), if_neg (by simp [hsidT]), hsid]
  dsimp only []
  rw [hsec]
  dsimp only []
  rw [if_neg (by simp [hS]), if_neg (by simp [hS])]
  dsimp only []
  rw [if_neg (by simp [hS])]

/-- `createProduct` on a subsection target: the row is appended at
`maxSubOrder + 1` in the `subSectionOrder` field, `order` left neutral. -/
theorem createProduct_eq_sub (a : CreateArgs) (db : Db) (pa : PriceArg) (v : Rat)
    (sid u : Nat) (sec : Section)
    (hnm : tStr a.name = true)
    (hpa : a.price = some pa) (hv : parsePrice pa = some v) (hvpos : 0 < v)
    (hsid : a.sectionId = some sid) (hsidT : tNat a.sectionId = true)
    (hsec : findSectionById db sid = some sec) (hS : sec.subSection = true)
    (hsub : a.subSectionId = some u) (hu : u ≠ 0) :
    createProduct a db
      = (.ok (freshProduct db (a.name.getD "") v sec.id (some u) 0
            (maxSubOrder db sec.id u + 1)),
         { db with products := db.products
             ++ [freshProduct db (a.name.getD "") v sec.id (some u) 0
                   (maxSubOrder db sec.id u + 1)] }) := by
  unfold createProduct
  rw [if_neg (by simp [hnm]), hpa]
  dsimp only []
  rw [hv]
  dsimp only []
  rw [if_neg (by simp [not_le.mpr hvpos]), if_neg (by simp [hsidT]), hsid]
  dsimp only []
  rw [hsec]
  dsimp only []
  rw [if_neg (by rw [hsub]; simp [tNat, hu]), if_neg (by rw [hsub]; simp [tNat, hu]), hsub]
  dsimp only []
  rw [if_pos (show (sec.subSection = true) ∧ (tNat (some u) = true) from
    ⟨hS, by simp [tNat, hu]⟩), Option.getD_some]

/-- `createProduct` on a section that requires a subsection when none was
supplied: the handler throws its fixed message and creates nothing;
the thrown outcome carries no candidate list. -/
theorem createProduct_eq_subRequired (a : CreateArgs) (db : Db) (pa : PriceArg) (v : Rat)
    (sid : Nat) (sec : Section)
    (hnm : tStr a.name = true)
    (hpa : a.price = some pa) (hv : parsePrice pa = some v) (hvpos : 0 < v)
    (hsid : a.sectionId = some sid) (hsidT : tNat a.sectionId = true)
    (hsec : findSectionById db sid = some sec) (hS : sec.subSection = true)
    (hsub : tNat a.subSectionId = false) (hsubNm : tStr a.subSectionName = false) :
    createProduct a db = (.errSubSectionRequired, db) := by
  unfold createProduct
  rw [if_neg (by simp [hnm]), hpa]
  dsimp only []
  rw [hv]
  dsimp only []
  rw [if_neg (by simp [not_le.mpr hvpos]), if_neg (by simp [hsidT]), hsid]
  dsimp only []
  rw [hsec]
  dsimp only []
  rw [if_pos (show (sec.subSection = true)
      ∧ ¬ ((tNat a.subSectionId || tStr a.subSectionName) = true) from
    ⟨hS, by simp [hsub, hsubNm]⟩)]

/-- `createProduct` when the price argument does not parse to a number
(JavaScript `NaN` after cleaning): nothing is created. -/
theorem createProduct_eq_priceNaN (a : CreateArgs) (db : Db) (pa : PriceArg)
    (hnm : tStr a.name = true)
    (hpa : a.price = some pa) (hv : parsePrice pa = none) :
    createProduct a db = (.errPriceNotPositive, db) := by
  unfold createProduct
  rw [if_neg (by simp [hnm]), hpa]
  dsimp only []
  rw [hv]

/-- `createProduct` when the parsed price is not positive: nothing is
created. -/
theorem createProduct_eq_priceNonpos (a : CreateArgs) (db : Db) (pa : PriceArg) (v : Rat)
    (hnm : tStr a.name = true)
    (hpa : a.price = some pa) (hv : parsePrice pa = some v) (hvle : v ≤ 0) :
    createProduct a db = (.errPriceNotPositive, db) := by
  unfold createProduct
  rw [if_neg (by simp [hnm]), hpa]
  dsimp only []
  rw [hv]
  dsimp only []
  rw [if_pos hvle]

/-- Reduction of `updateProduct` when the product is identified by id, a
target section id is supplied, the target section requires a subsection and
none was supplied: the handler stops and returns the clarification payload
carrying the target section's candidate subsections, leaving the store
untouched. -/
theorem updateProduct_clarify (a : UpdateArgs) (db : Db) (pid sid2 : Nat)
    (P : Product) (S2 : Section)
    (hid : a.id = some pid) (hpid : pid ≠ 0)
    (hfind : findIn db.products pid = some P)
    (hsid : a.sectionId = some sid2) (hs2 : sid2 ≠ 0)
    (hsecNm : a.sectionName = none)
    (hsubId : a.subSectionId = none) (hsubNm : a.subSectionName = none)
    (hsec2 : findSectionById db sid2 = some S2)
    (hS2sub : S2.subSection = true) :
    updateProduct a db = ⟨.needSubSection S2.subSections, db, []⟩ := by
  have hT : tNat a.id = true := by rw [hid]; simp [tNat, hpid]
  have hTs : tNat a.sectionId = true := by rw [hsid]; simp [tNat, hs2]
  unfold updateProduct
  rw [if_neg (by simp [hT]), if_neg (by simp [hTs]), if_pos hT, hid]
  show (match findByWhere db.products (PWhere.byId ((some pid).getD 0)) with
    | none => (⟨.errProductNotFound, db, []⟩ : UpdateRes)
    | some existing =>
      let usedSelector := tNat a.sectionId || tStr a.sectionName
      let tsOpt : Option Section :=
        if usedSelector then
          if tNat a.sectionId then findSectionById db (a.sectionId.getD 0)
          else findSectionByName db (a.sectionName.getD "")
        else findSectionById db existing.sectionId
      match tsOpt with
      | none =>
        if usedSelector then ⟨.errTargetSectionNotFound, db, []⟩
        else ⟨.errInternalNullSection, db, []⟩
      | some targetSection =>
        if targetSection.subSection ∧ ¬ tNat a.subSectionId ∧ ¬ tStr a.subSectionName ∧
            (tNat a.sectionId ∨ tStr a.sectionName ∨ ¬ tNat existing.subSectionId) then
          ⟨.needSubSection targetSection.subSections, db, []⟩
        else
          let targetSubId0 : Option Nat := a.subSectionId.or existing.subSectionId
          if tStr a.subSectionName then
            match targetSection.subSections.find?
                (fun s => lc s.name == lc (a.subSectionName.getD "")) with
            | none => ⟨.errSubNotFound targetSection.subSections, db, []⟩
            | some sub => updateCore a db (PWhere.byId ((some pid).getD 0)) existing targetSection (some sub.id)
          else updateCore a db (PWhere.byId ((some pid).getD 0)) existing targetSection targetSubId0)
    = (⟨.needSubSection S2.subSections, db, []⟩ : UpdateRes)
  rw [show (some pid).getD 0 = pid from rfl, findByWhere_byId, hfind]
  rw [hTs]
  show (let tsOpt : Option Section :=
      if (true || tStr a.sectionName) = true then
        if (true : Bool) then findSectionById db (a.sectionId.getD 0)
        else findSectionByName db (a.sectionName.getD "")
      else findSectionById db P.sectionId
    match tsOpt with
    | none =>
      if (true || tStr a.sectionName) = true then (⟨.errTargetSectionNotFound, db, []⟩ : UpdateRes)
      else ⟨.errInternalNullSection, db, []⟩
    | some targetSection =>
      if targetSection.subSection ∧ ¬ tNat a.subSectionId ∧ ¬ tStr a.subSectionName ∧
          ((true : Bool) ∨ tStr a.sectionName ∨ ¬ tNat P.subSectionId) then
        ⟨.needSubSection targetSection.subSections, db, []⟩
      else
        let targetSubId0 : Option Nat := a.subSectionId.or P.subSectionId
        if tStr a.subSectionName then
          match targetSection.subSections.find?
              (fun s => lc s.name == lc (a.subSectionName.getD "")) with
          | none => ⟨.errSubNotFound targetSection.subSections, db, []⟩
          | some sub => updateCore a db (PWhere.byId pid) P targetSection (some sub.id)
        else updateCore a db (PWhere.byId pid) P targetSection targetSubId0)
    = (⟨.needSubSection S2.subSections, db, []⟩ : UpdateRes)
  rw [hsid, hsubNm]
  show (match findSectionById db ((some sid2).getD 0) with
    | none => (⟨.errTargetSectionNotFound, db, []⟩ : UpdateRes)
    | some targetSection =>
      if targetSection.subSection ∧ ¬ tNat a.subSectionId ∧ ¬ tStr (none : Option String) ∧
          ((true : Bool) ∨ tStr a.sectionName ∨ ¬ tNat P.subSectionId) then
        ⟨.needSubSection targetSection.subSections, db, []⟩
      else updateCore a db (PWhere.byId pid) P targetSection (a.subSectionId.or P.subSectionId))
    = (⟨.needSubSection S2.subSections, db, []⟩ : UpdateRes)
  rw [show (some sid2).getD 0 = sid2 from rfl, hsec2]
  show (if S2.subSection ∧ ¬ tNat a.subSectionId ∧ ¬ tStr (none : Option String) ∧
      ((true : Bool) ∨ tStr a.sectionName ∨ ¬ tNat P.subSectionId) then
      (⟨.needSubSection S2.subSections, db, []⟩ : UpdateRes)
    else updateCore a db (PWhere.byId pid) P S2 (a.subSectionId.or P.subSectionId))
    = (⟨.needSubSection S2.subSections, db, []⟩ : UpdateRes)
  rw [if_pos ⟨hS2sub, by rw [hsubId]; simp [tNat], by simp [tStr], Or.inl rfl⟩]

/-- C4 (amended): `createProduct` of `src/server.ts` appends at the
container's current maximum position plus one — `order` for a top-level
section (`1` when the container is empty), `subSectionOrder` for a
subsection.  The `createProduct` of the second server file computes **no**
position at all: the created row keeps the neutral position `0` in both
fields, whatever the container already holds. -/
theorem c4_create_appends_max_plus_one_amended :
    (∀ (a : CreateArgs) (db : Db) (pa : PriceArg) (v : Rat) (sid : Nat) (sec : Section),
      tStr a.name = true → a.price = some pa → parsePrice pa = some v → 0 < v →
      a.sectionId = some sid → tNat a.sectionId = true →
      findSectionById db sid = some sec → sec.subSection = false →
      ∃ p, (createProduct a db).1 = .ok p ∧
        (createProduct a db).2.products = db.products ++ [p] ∧
        p.order = maxTopOrder db sec.id + 1 ∧ p.subSectionId = none ∧
        p.subSectionOrder = 0 ∧
        (containerMembers db sec.id none = [] → p.order = 1)) ∧
    (∀ (a : CreateArgs) (db : Db) (pa : PriceArg) (v : Rat) (sid u : Nat) (sec : Section),
      tStr a.name = true → a.price = some pa → parsePrice pa = some v → 0 < v →
      a.sectionId = some sid → tNat a.sectionId = true →
      findSectionById db sid = some sec → sec.subSection = true →
      a.subSectionId = some u → u ≠ 0 →
      ∃ p, (createProduct a db).1 = .ok p ∧
        (createProduct a db).2.products = db.products ++ [p] ∧
        p.subSectionOrder = maxSubOrder db sec.id u + 1 ∧ p.subSectionId = some u ∧
        p.order = 0 ∧
        (containerMembers db sec.id (some u) = [] → p.subSectionOrder = 1)) ∧
    (∀ (a : P0CreateArgs) (db : Db),
      p0Valid a = true →
      ∃ p, (part000CreateProduct a db).1 = .ok p ∧
        (part000CreateProduct a db).2.products = db.products ++ [p] ∧
        p.order = 0 ∧ p.subSectionOrder = 0) := by
  refine ⟨?_, ?_, ?_⟩
  · intro a db pa v sid sec hnm hpa hv hvpos hsid hsidT hsec hS
    rw [createProduct_eq_top a db pa v sid sec hnm hpa hv hvpos hsid hsidT hsec hS]
    refine ⟨freshProduct db (a.name.getD "") v sec.id none (maxTopOrder db sec.id + 1) 0,
      rfl, rfl, rfl, rfl, rfl, ?_⟩
    intro hempty
    show maxTopOrder db sec.id + 1 = 1
    rw [show maxTopOrder db sec.id
      = maxOf ((containerMembers db sec.id none).map (·.order)) from rfl, hempty]
    rfl
  · intro a db pa v sid u sec hnm hpa hv hvpos hsid hsidT hsec hS hsub hu
    rw [createProduct_eq_sub a db pa v sid u sec hnm hpa hv hvpos hsid hsidT hsec hS hsub hu]
    refine ⟨freshProduct db (a.name.getD "") v sec.id (some u) 0
        (maxSubOrder db sec.id u + 1),
      rfl, rfl, rfl, rfl, rfl, ?_⟩
    intro hempty
    show maxSubOrder db sec.id u + 1 = 1
    rw [show maxSubOrder db sec.id u
      = maxOf ((containerMembers db sec.id (some u)).map (·.subSectionOrder)) from rfl, hempty]
    rfl
  · intro a db hval
    unfold part000CreateProduct
    rw [if_pos hval]
    exact ⟨freshProduct db a.name ((coercePrice a.price).getD 0) a.sectionId a.subSectionId 0 0,
      rfl, rfl, rfl, rfl⟩

/-- Witness for C4 (amended): creating a product in the two-member
top-level section `1` of `exDbTop` appends it at `order = 3`. -/
theorem c4_create_appends_max_plus_one_amended_witness :
    ((tStr (({ name := some "Calabresa", price := some (.num 5), sectionId := some 1 }
        : CreateArgs)).name) = true ∧
      parsePrice (.num 5) = some 5 ∧ (0 : Rat) < 5 ∧
      tNat (some 1 : Option Nat) = true ∧
      findSectionById exDbTop 1 = some ⟨1, "Pizzas", false, []⟩) ∧
    (∃ p, (createProduct { name := some "Calabresa", price := some (.num 5), sectionId := some 1 } exDbTop).1 = .ok p ∧
      (createProduct { name := some "Calabresa", price := some (.num 5), sectionId := some 1 } exDbTop).2.products = exDbTop.products ++ [p] ∧
      p.order = maxTopOrder exDbTop 1 + 1 ∧ p.subSectionId = none ∧
      p.subSectionOrder = 0 ∧
      (containerMembers exDbTop 1 none = [] → p.order = 1)) :=
  ⟨by decide,
    c4_create_appends_max_plus_one_amended.1
      { name := some "Calabresa", price := some (.num 5), sectionId := some 1 }
      exDbTop (.num 5) 5 1 ⟨1, "Pizzas", false, []⟩
      (by decide) rfl rfl (by decide) rfl (by decide) (by decide) (by decide)⟩

/-- Counterexample for C4 as stated: the second server file's
`createProduct` gives the new row position `0`, not `m + 1`: in section `1`
of `exDbTop` (max top-level position `2`) the created row's `order` is `0`,
not `3`. -/
theorem c4_part000_no_position_counterexample :
    (part000CreateProduct ⟨"Calabresa", .num 5, 1, none⟩ exDbTop).1
      = .ok (freshProduct exDbTop "Calabresa" 5 1 none 0 0) ∧
    (freshProduct exDbTop "Calabresa" 5 1 none 0 0).order = 0 ∧
    maxTopOrder exDbTop 1 + 1 = 3 ∧ (0 : Nat) ≠ 3 := by decide

/-- C8 (amended): when the target section requires a subsection and none is
supplied, `createProduct` halts without creating anything, but its thrown
error is a plain fixed message that carries **no** candidate subsections;
only `updateProduct`'s clarification result carries the target section's
candidate list. -/
theorem c8_clarification_amended :
    (∀ (a : CreateArgs) (db : Db) (pa : PriceArg) (v : Rat) (sid : Nat) (sec : Section),
      tStr a.name = true → a.price = some pa → parsePrice pa = some v → 0 < v →
      a.sectionId = some sid → tNat a.sectionId = true →
      findSectionById db sid = some sec → sec.subSection = true →
      tNat a.subSectionId = false → tStr a.subSectionName = false →
      createProduct a db = (.errSubSectionRequired, db)) ∧
    (∀ (a : UpdateArgs) (db : Db) (pid sid2 : Nat) (P : Product) (S2 : Section),
      a.id = some pid → a.sectionId = some sid2 →
      a.sectionName = none → a.subSectionId = none → a.subSectionName = none →
      pid ≠ 0 → sid2 ≠ 0 →
      findIn db.products pid = some P →
      findSectionById db sid2 = some S2 → S2.subSection = true →
      updateProduct a db = ⟨.needSubSection S2.subSections, db, []⟩) := by
  constructor
  · intro a db pa v sid sec hnm hpa hv hvpos hsid hsidT hsec hS hsub hsubNm
    exact createProduct_eq_subRequired a db pa v sid sec hnm hpa hv hvpos hsid hsidT
      hsec hS hsub hsubNm
  · intro a db pid sid2 P S2 hid hsid hsecNm hsubId hsubNm hpid hs2 hfind hsec2 hS2sub
    exact updateProduct_clarify a db pid sid2 P S2 hid hpid hfind hsid hs2 hsecNm
      hsubId hsubNm hsec2 hS2sub

/-- Witness for C8 (amended): moving product `10` of `exDbMove` into
section `2`, which requires a subsection, returns the clarification payload
with that section's candidate subsections and leaves the store unchanged. -/
theorem c8_clarification_amended_witness :
    (((10 : Nat) ≠ 0) ∧ ((2 : Nat) ≠ 0) ∧
      findIn exDbMove.products 10 = some (mkP 10 "Muzzarella" 1 none 1 0) ∧
      findSectionById exDbMove 2 = some ⟨2, "Tragos", true, [⟨5, "Vodka"⟩]⟩) ∧
    updateProduct { id := some 10, sectionId := some 2 } exDbMove
      = ⟨.needSubSection [⟨5, "Vodka"⟩], exDbMove, []⟩ :=
  ⟨by decide,
    c8_clarification_amended.2 { id := some 10, sectionId := some 2 } exDbMove
      10 2 (mkP 10 "Muzzarella" 1 none 1 0) ⟨2, "Tragos", true, [⟨5, "Vodka"⟩]⟩
      rfl rfl rfl rfl rfl (by decide) (by decide) (by decide) (by decide) (by decide)⟩

/-- Counterexample for C8 as stated: two stores whose required section
offers **different** candidate subsections produce the **same**
`createProduct` outcome — the create-side halt carries no candidate list,
and nothing is created. -/
theorem c8_create_halt_no_candidates_counterexample :
    createProduct { name := some "X", price := some (.num 5), sectionId := some 1 }
        exDbClarifyA = (.errSubSectionRequired, exDbClarifyA) ∧
    createProduct { name := some "X", price := some (.num 5), sectionId := some 1 }
        exDbClarifyB = (.errSubSectionRequired, exDbClarifyB) ∧
    (findSectionById exDbClarifyA 1).map (·.subSections) = some [⟨2, "Vodka"⟩] ∧
    (findSectionById exDbClarifyB 1).map (·.subSections) = some [⟨3, "Gin"⟩, ⟨4, "Ron"⟩] ∧
    ([⟨2, "Vodka"⟩] : List SubSection) ≠ [⟨3, "Gin"⟩, ⟨4, "Ron"⟩] := by decide

/-- C9 (amended): in `src/server.ts`'s `createProduct` a string price is
cleaned of every character other than digits, `.` and `-` before parsing;
if the result is `NaN` or not positive the call fails and nothing is
created, and on success the created row's price is exactly the parsed
value.  The second server file's `createProduct` instead coerces the raw
string without cleaning, so a price like `"$100"` fails validation there
although its cleaned parse is positive. -/
theorem c9_price_cleaning_amended :
    (∀ (a : CreateArgs) (db : Db) (pa : PriceArg),
      tStr a.name = true → a.price = some pa → parsePrice pa = none →
      createProduct a db = (.errPriceNotPositive, db)) ∧
    (∀ (a : CreateArgs) (db : Db) (pa : PriceArg) (v : Rat),
      tStr a.name = true → a.price = some pa → parsePrice pa = some v → v ≤ 0 →
      createProduct a db = (.errPriceNotPositive, db)) ∧
    (∀ (a : CreateArgs) (db : Db) (pa : PriceArg) (v : Rat) (sid : Nat) (sec : Section),
      tStr a.name = true → a.price = some pa → parsePrice pa = some v → 0 < v →
      a.sectionId = some sid → tNat a.sectionId = true →
      findSectionById db sid = some sec → sec.subSection = false →
      ∃ p, (createProduct a db).1 = .ok p ∧ p.price = v) ∧
    (∀ (a : CreateArgs) (db : Db) (pa : PriceArg) (v : Rat) (sid u : Nat) (sec : Section),
      tStr a.name = true → a.price = some pa → parsePrice pa = some v → 0 < v →
      a.sectionId = some sid → tNat a.sectionId = true →
      findSectionById db sid = some sec → sec.subSection = true →
      a.subSectionId = some u → u ≠ 0 →
      ∃ p, (createProduct a db).1 = .ok p ∧ p.price = v) := by
  refine ⟨?_, ?_, ?_, ?_⟩
  · intro a db pa hnm hpa hv
    exact createProduct_eq_priceNaN a db pa hnm hpa hv
  · intro a db pa v hnm hpa hv hvle
    exact createProduct_eq_priceNonpos a db pa v hnm hpa hv hvle
  · intro a db pa v sid sec hnm hpa hv hvpos hsid hsidT hsec hS
    rw [createProduct_eq_top a db pa v sid sec hnm hpa hv hvpos hsid hsidT hsec hS]
    exact ⟨freshProduct db (a.name.getD "") v sec.id none (maxTopOrder db sec.id + 1) 0,
      rfl, rfl⟩
  · intro a db pa v sid u sec hnm hpa hv hvpos hsid hsidT hsec hS hsub hu
    rw [createProduct_eq_sub a db pa v sid u sec hnm hpa hv hvpos hsid hsidT hsec hS hsub hu]
    exact ⟨freshProduct db (a.name.getD "") v sec.id (some u) 0
        (maxSubOrder db sec.id u + 1),
      rfl, rfl⟩

/-- Witness for C9 (amended): a price of `"$0"` cleans to `"0"`, parses to
`0`, is not positive, and the call fails with the store unchanged. -/
theorem c9_price_cleaning_amended_witness :
    ((tStr (({ name := some "X", price := some (.str "$0"), sectionId := some 1 }
        : CreateArgs)).name) = true ∧
      parsePrice (.str "$0") = some 0 ∧ ((0 : Rat) ≤ 0)) ∧
    createProduct { name := some "X", price := some (.str "$0"), sectionId := some 1 }
      exDbOne = (.errPriceNotPositive, exDbOne) :=
  ⟨by decide,
    c9_price_cleaning_amended.2.1
      { name := some "X", price := some (.str "$0"), sectionId := some 1 }
      exDbOne (.str "$0") 0 (by decide) rfl (by decide) (by decide)⟩

/-- Counterexample for C9 as stated: the second server file's zod coercion
does no character stripping, so the price string `"$100"` is rejected there
although after stripping it parses to the positive number `100`. -/
theorem c9_part000_string_price_counterexample :
    part000CreateProduct ⟨"X", .str "$100", 1, none⟩ exDbOne = (.errValidation, exDbOne) ∧
    parsePrice (.str "$100") = some 100 ∧ ((0 : Rat) < 100) ∧
    coercePrice (.str "$100") = none := by decide

/-- C10: for a target section whose `subSection` flag is false, any
supplied `subSectionId` or `subSectionName` — both left unconstrained
below — is silently ignored: the product is created in the section's
top-level container with no subsection reference, its position written to
the top-level `order` field (`maxTopOrder + 1`), `subSectionOrder` left
neutral.  (The created row's `id`, `description`, `active` and position
defaults are the spec-modelled store defaults of `freshProduct`.) -/
theorem c10_top_level_ignores_subsection_args :
    ∀ (a : CreateArgs) (db : Db) (pa : PriceArg) (v : Rat) (sid : Nat) (sec : Section),
      tStr a.name = true → a.price = some pa → parsePrice pa = some v → 0 < v →
      a.sectionId = some sid → tNat a.sectionId = true →
      findSectionById db sid = some sec → sec.subSection = false →
      createProduct a db
        = (.ok (freshProduct db (a.name.getD "") v sec.id none (maxTopOrder db sec.id + 1) 0),
           { db with products := db.products
               ++ [freshProduct db (a.name.getD "") v sec.id none
                     (maxTopOrder db sec.id + 1) 0] }) ∧
      (freshProduct db (a.name.getD "") v sec.id none
        (maxTopOrder db sec.id + 1) 0).subSectionId = none ∧
      (freshProduct db (a.name.getD "") v sec.id none
        (maxTopOrder db sec.id + 1) 0).order = maxTopOrder db sec.id + 1 ∧
      (freshProduct db (a.name.getD "") v sec.id none
        (maxTopOrder db sec.id + 1) 0).subSectionOrder = 0 :=
  fun a db pa v sid sec hnm hpa hv hvpos hsid hsidT hsec hS =>
    ⟨createProduct_eq_top a db pa v sid sec hnm hpa hv hvpos hsid hsidT hsec hS,
      rfl, rfl, rfl⟩

/-- Witness for C10: creating into the top-level section `1` of `exDbTop`
while supplying both a bogus `subSectionId` and a bogus `subSectionName`
still creates the row top level at `order = 3`. -/
theorem c10_top_level_ignores_subsection_args_witness :
    ((tStr (({ name := some "Muzza2", price := some (.num 7), sectionId := some 1, subSectionId := some 99, subSectionName := some "Ghost" } : CreateArgs)).name) = true ∧
      parsePrice (.num 7) = some 7 ∧ ((0 : Rat) < 7) ∧
      tNat (some 1 : Option Nat) = true ∧
      findSectionById exDbTop 1 = some ⟨1, "Pizzas", false, []⟩) ∧
    (createProduct { name := some "Muzza2", price := some (.num 7), sectionId := some 1, subSectionId := some 99, subSectionName := some "Ghost" } exDbTop
      = (.ok (freshProduct exDbTop "Muzza2" 7 1 none 3 0),
         { exDbTop with products := exDbTop.products
             ++ [freshProduct exDbTop "Muzza2" 7 1 none 3 0] }) ∧
      (freshProduct exDbTop "Muzza2" 7 1 none 3 0).subSectionId = none ∧
      (freshProduct exDbTop "Muzza2" 7 1 none 3 0).order = 3 ∧
      (freshProduct exDbTop "Muzza2" 7 1 none 3 0).subSectionOrder = 0) :=
  ⟨by decide,
    c10_top_level_ignores_subsection_args
      { name := some "Muzza2", price := some (.num 7), sectionId := some 1, subSectionId := some 99, subSectionName := some "Ghost" }
      exDbTop (.num 7) 7 1 ⟨1, "Pizzas", false, []⟩
      (by decide) rfl rfl (by decide) rfl (by decide) (by decide) (by decide)⟩

end RestaurantMcp
